import Mathlib

/-!
# Verification of the minefield construction and reveal engine

A shallow embedding of the mine-placement and reveal logic of a grid-based
mine-clearing puzzle.  Positions are integer pairs (`Vec2`), the grid is a
row-major list of cell states indexed by `x + y * dimension`, and the game
state carries the eligible-position pool (`minables`), the cluster-id counter
(`currentId`), and the play-phase counters.  The random source is modelled as
a tape of natural numbers, each draw taken modulo the current pool size, and
the two recursive procedures (`updateId`, `openCell`) are modelled with an
explicit fuel parameter; the call sites supply fuel no smaller than the
recursion depth of the original programs.
-/

/-- A 2-dimensional integer vector, mirroring the `Vec2` class. -/
structure Vec2 where
  x : Int
  y : Int
deriving DecidableEq, Repr

/-- Vector addition (`Vec2.add`). -/
def Vec2.add (a b : Vec2) : Vec2 := ⟨a.x + b.x, a.y + b.y⟩

/-- Vector subtraction (`Vec2.subtract`). -/
def Vec2.subtract (a b : Vec2) : Vec2 := ⟨a.x - b.x, a.y - b.y⟩

/-- Vector negation (`Vec2.negate`). -/
def Vec2.negate (a : Vec2) : Vec2 := ⟨-a.x, -a.y⟩

/-- 90 degree clockwise rotation (`Vec2.clockwise`). -/
def Vec2.clockwise (a : Vec2) : Vec2 := ⟨a.y, -a.x⟩

/-- Chebyshev-distance-at-most-one adjacency test (`Vec2.adjacentTo`). -/
def Vec2.adjacentTo (a b : Vec2) : Bool :=
  let d := a.subtract b
  (-1 ≤ d.x && d.x ≤ 1) && (-1 ≤ d.y && d.y ≤ 1)

/-- Cell states: `Open`, `Close` (unopened, with flag bit) and `Mine`
(group id, possibly still unassigned, with flag bit). -/
inductive Cell where
  | Open : Cell
  | Close (flagged : Bool) : Cell
  | Mine (id : Option Nat) (flagged : Bool) : Cell
deriving DecidableEq, Repr

/-- The `flagged` field of a cell; an `Open` cell has none, which reads as
false. -/
def Cell.flaggedBit : Cell → Bool
  | .Open => false
  | .Close f => f
  | .Mine _ f => f

def NORTH : Vec2 := ⟨0, -1⟩
def NORTHEAST : Vec2 := ⟨1, -1⟩
def EAST : Vec2 := ⟨1, 0⟩
def SOUTHEAST : Vec2 := ⟨1, 1⟩
def SOUTH : Vec2 := ⟨0, 1⟩
def SOUTHWEST : Vec2 := ⟨-1, 1⟩
def WEST : Vec2 := ⟨-1, 0⟩
def NORTHWEST : Vec2 := ⟨-1, -1⟩

def ALL_DIRS : List Vec2 :=
  [NORTH, NORTHEAST, EAST, SOUTHEAST, SOUTH, SOUTHWEST, WEST, NORTHWEST]

def ORTHO_DIRS : List Vec2 := [NORTH, EAST, SOUTH, WEST]

/-- The full game state: the grid, the generation bookkeeping
(`minables`, `currentId`) and the play-phase counters.  `dimension` and
`totalMines` are the two customizable gameplay variables; `wins` counts the
invocations of the `win` procedure. -/
structure GameState where
  dimension : Nat
  totalMines : Nat
  grid : List Cell
  minables : List Vec2
  currentId : Nat
  remainingClearCells : Int
  numRemainingFlags : Int
  wins : Nat
deriving DecidableEq, Repr

/-- `isOutsideField`: whether a position lies outside the
`dimension × dimension` field. -/
def isOutsideField (s : GameState) (p : Vec2) : Bool :=
  p.x < 0 || (s.dimension : Int) ≤ p.x || p.y < 0 || (s.dimension : Int) ≤ p.y

/-- The row-major index `x + y * dimension` used by `getState`/`setState`. -/
def cellIndex (s : GameState) (p : Vec2) : Int :=
  p.x + p.y * (s.dimension : Int)

/-- `getState`: the cell stored at `grid[x + y * dimension]`; out-of-range
indices read as `none` (undefined). -/
def getState (s : GameState) (p : Vec2) : Option Cell :=
  let i := cellIndex s p
  if 0 ≤ i then s.grid.get? i.toNat else none

/-- `setState`: store a cell at `grid[x + y * dimension]`.  All call sites
use in-field positions, whose index is in range. -/
def setState (s : GameState) (p : Vec2) (c : Cell) : GameState :=
  let i := cellIndex s p
  if 0 ≤ i then { s with grid := s.grid.set i.toNat c } else s

/-- `isMine`: whether the cell read at a position is a `Mine`. -/
def isMine (s : GameState) (p : Vec2) : Bool :=
  match getState s p with
  | some (.Mine _ _) => true
  | _ => false

/-- `isEmpty`: inside the field and unopened (`Close`). -/
def isEmpty (s : GameState) (p : Vec2) : Bool :=
  !isOutsideField s p &&
    match getState s p with
    | some (.Close _) => true
    | _ => false

/-- `getId`: 0 for out-of-field positions, otherwise the `id` field of the
cell (undefined — `none` — unless the cell is a mine with an assigned id). -/
def getId (s : GameState) (p : Vec2) : Option Nat :=
  if isOutsideField s p then some 0
  else
    match getState s p with
    | some (.Mine id _) => id
    | _ => none

/-- `hasId id`: not empty and carrying group id `id`. -/
def hasId (s : GameState) (id : Nat) (p : Vec2) : Bool :=
  !isEmpty s p && getId s p == some id

/-- `Vec2.neighbors`: the up-to-8 adjacent positions inside the field. -/
def neighbors (s : GameState) (p : Vec2) : List Vec2 :=
  (ALL_DIRS.map (fun d => p.add d)).filter (fun q => !isOutsideField s q)

/-- `getCommonIdInDirs`: the common group id of the two neighbors of `pos` in
directions `dir1` and `dir2`, or `none` when either neighbor is empty or
their ids differ.  (When both neighbors are mines with unassigned ids the
common id is itself `null`, which callers treat the same as no common id.) -/
def getCommonIdInDirs (s : GameState) (pos dir1 dir2 : Vec2) : Option Nat :=
  let n1 := pos.add dir1
  let n2 := pos.add dir2
  if !isEmpty s n1 && !isEmpty s n2 && getId s n1 == getId s n2 then
    getId s n1
  else none

/-- `isSurrounded`: all in-field neighbors are mines. -/
def isSurrounded (s : GameState) (p : Vec2) : Bool :=
  (neighbors s p).all (fun q => isMine s q)

/-- `willCreateIsland`: the pinch test, evaluated with `pos` tentatively set
to a mine.  First the vertical axis (common id of the north/south pair), then
the horizontal axis, then the general corner check over the four
orthogonal-direction/clockwise pairs. -/
def willCreateIsland (s : GameState) (pos : Vec2) : Bool :=
  match getCommonIdInDirs s pos NORTH SOUTH with
  | some id =>
    if ([WEST, NORTHWEST, SOUTHWEST].map (fun d => pos.add d)).all
        (fun q => hasId s id q) then
      if hasId s id (pos.add EAST) then
        !(([SOUTHEAST, NORTHEAST].map (fun d => pos.add d)).any
            (fun q => hasId s id q))
      else false
    else if ([EAST, NORTHEAST, SOUTHEAST].map (fun d => pos.add d)).all
        (fun q => hasId s id q) then
      if hasId s id (pos.add WEST) then
        ([SOUTHWEST, NORTHWEST].map (fun d => pos.add d)).any
          (fun q => hasId s id q)
      else false
    else true
  | none =>
  match getCommonIdInDirs s pos WEST EAST with
  | some id =>
    if ([NORTH, NORTHWEST, NORTHEAST].map (fun d => pos.add d)).all
        (fun q => hasId s id q) then
      if hasId s id (pos.add SOUTH) then
        !(([SOUTHWEST, SOUTHEAST].map (fun d => pos.add d)).any
            (fun q => hasId s id q))
      else false
    else if ([SOUTH, SOUTHWEST, SOUTHEAST].map (fun d => pos.add d)).all
        (fun q => hasId s id q) then
      if hasId s id (pos.add NORTH) then
        ([NORTHWEST, NORTHEAST].map (fun d => pos.add d)).any
          (fun q => hasId s id q)
      else false
    else true
  | none =>
    ORTHO_DIRS.any (fun dir =>
      let cw := dir.clockwise
      match getCommonIdInDirs s pos dir cw with
      | some id => hasId s id ((pos.add dir).add cw)
      | none => false)

/-- The rejection condition of `generateMine`: the tentative mine fully
surrounds a cell, one of its neighbors is fully surrounded, or the placement
pinches off an island. -/
def violates (s : GameState) (pos : Vec2) : Bool :=
  isSurrounded s pos || (neighbors s pos).any (fun q => isSurrounded s q) ||
    willCreateIsland s pos

/-- Replace the id of the mine stored at a position (`getState(pos).id = v`).
All call sites reach only mine cells, so non-mine cells are left unchanged. -/
def setId (s : GameState) (p : Vec2) (v : Nat) : GameState :=
  let i := cellIndex s p
  if 0 ≤ i then
    match s.grid.get? i.toNat with
    | some (.Mine _ f) => { s with grid := s.grid.set i.toNat (.Mine (some v) f) }
    | _ => s
  else s

/-- `updateId`: propagate a group-id change through a cluster.  Reassigns
`newId` at `pos` (unless out of field or already carrying `newId`), then
recurses into every orthogonally adjacent mine except back through
`fromDir`, threading the state left to right.  The fuel bounds the
recursion depth; call sites pass the grid size, which exceeds the number of
cells still to be recolored. -/
def updateId : Nat → Vec2 → Nat → Vec2 → GameState → GameState
  | 0, _, _, _, s => s
  | fuel+1, pos, newId, fromDir, s =>
    if !isOutsideField s pos && getId s pos != some newId then
      let s1 := setId s pos newId
      let mineDirs := ORTHO_DIRS.filter (fun dir => isMine s1 (pos.add dir))
      mineDirs.foldl (fun acc dir =>
        if dir = fromDir then acc
        else updateId fuel (pos.add dir) newId dir.negate acc) s1
    else s

/-- The iteration of `updateId` over the orthogonal mine directions of a
cell, skipping the direction the change was propagated from.  (The fold in
the successor case of `updateId` is exactly this function.) -/
def updateIdAll (fuel : Nat) (dirs : List Vec2) (pos : Vec2) (newId : Nat)
    (fromDir : Vec2) (s : GameState) : GameState :=
  dirs.foldl (fun acc dir =>
    if dir = fromDir then acc
    else updateId fuel (pos.add dir) newId dir.negate acc) s

/-- The cluster-id assignment performed by `generateMine` after a mine at
`pos` has been accepted: take the minimum of `currentId` and the ids of the
non-empty orthogonal neighbors, store it at `pos`, propagate it into each
non-empty orthogonal direction, and advance `currentId`. -/
def assignId (s : GameState) (pos : Vec2) : GameState :=
  let mineDirs := ORTHO_DIRS.filter (fun dir => !isEmpty s (pos.add dir))
  if mineDirs.length > 0 then
    let id := mineDirs.foldl (fun a dir =>
      match getId s (pos.add dir) with
      | some k => Nat.min a k
      | none => a) s.currentId
    let s2 := setId s pos id
    let s3 := mineDirs.foldl (fun acc dir =>
      updateId acc.grid.length (pos.add dir) id dir.negate acc) s2
    { s3 with currentId := s3.currentId + 1 }
  else s

/-- `randomMinablePos`: draw a position from the pool (uniformly via the next
tape entry) and remove it; raises the exhausted-pool error on an empty
pool. -/
def randomMinablePos (s : GameState) (tape : List Nat) :
    Except String (Vec2 × GameState × List Nat) :=
  if s.minables.length = 0 then .error "No minable spaces left"
  else
    let index := tape.headD 0 % s.minables.length
    let pos := s.minables.getD index ⟨0, 0⟩
    .ok (pos, { s with minables := s.minables.eraseIdx index }, tape.tail)

/-- The rejection-sampling loop of `generateMine`: draw a position, set it to
a tentative mine, and while the placement `violates` the constraints revert
it and draw again.  Returns the accepted position together with the state in
which it is a mine with unassigned id.  Each iteration removes one pool
entry, so fuel equal to the pool size is never exhausted. -/
def placeLoop : Nat → GameState → List Nat →
    Except String (Vec2 × GameState × List Nat)
  | fuel, s, tape =>
    match randomMinablePos s tape with
    | .error e => .error e
    | .ok (pos, s1, t1) =>
      if violates (setState s1 pos (.Mine none false)) pos then
        match fuel with
        | 0 => .error "out of fuel"
        | f+1 =>
          placeLoop f
            (setState (setState s1 pos (.Mine none false)) pos (.Close false)) t1
      else .ok (pos, setState s1 pos (.Mine none false), t1)

/-- `generateMine`: place one mine by rejection sampling, then assign and
propagate its cluster id. -/
def generateMine (s : GameState) (tape : List Nat) :
    Except String (GameState × List Nat) :=
  match placeLoop s.minables.length s tape with
  | .error e => .error e
  | .ok (pos, s1, t1) => .ok (assignId s1 pos, t1)

/-- The placement loop of `populateMines`: `totalMines` successive calls of
`generateMine`. -/
def genIter : Nat → GameState → List Nat → Except String (GameState × List Nat)
  | 0, s, tape => .ok (s, tape)
  | n+1, s, tape =>
    match generateMine s tape with
    | .error e => .error e
    | .ok (s', t') => genIter n s' t'

/-- All grid positions in row-major order (y outer, x inner). -/
def allPositions (d : Nat) : List Vec2 :=
  (List.range d).flatMap (fun (y : Nat) =>
    (List.range d).map (fun (x : Nat) => ⟨(x : Int), (y : Int)⟩))

/-- The eligible-pool construction of `populateMines`: every position not
adjacent (Chebyshev distance ≤ 1) to the first click. -/
def buildMinables (s : GameState) (clickPos : Vec2) : GameState :=
  { s with minables :=
      (allPositions s.dimension).filter (fun p => !clickPos.adjacentTo p) }

/-- `populateMines`: build the eligible pool and place `totalMines` mines. -/
def populateMines (s : GameState) (clickPos : Vec2) (tape : List Nat) :
    Except String (GameState × List Nat) :=
  genIter s.totalMines (buildMinables s clickPos) tape

/-- `initGame`: a fresh round — an all-`Close` grid of `dimension²` cells,
`remainingClearCells = dimension² − totalMines`, `totalMines` flags, reset
cluster counter. -/
def initGame (d m : Nat) : GameState :=
  { dimension := d
    totalMines := m
    grid := List.replicate (d * d) (.Close false)
    minables := []
    currentId := 1
    remainingClearCells := (d * d : Int) - (m : Int)
    numRemainingFlags := (m : Int)
    wins := 0 }

/-- The `flagged` bit read at a position (false when undefined). -/
def flaggedAt (s : GameState) (p : Vec2) : Bool :=
  match getState s p with
  | some c => c.flaggedBit
  | none => false

/-- `openCell`: open a position (returning a flag if it was flagged), count
its mine neighbors, flood into the empty neighbors when the count is zero,
decrement the remaining-clear-cell counter, and signal the win when the
counter reaches zero.  The fuel bounds the recursion depth; call sites pass
one more than the grid size. -/
def openCell : Nat → Vec2 → GameState → GameState
  | 0, _, s => s
  | fuel+1, pos, s =>
    let nbrs := neighbors s pos
    let s0 := if flaggedAt s pos then
        { s with numRemainingFlags := s.numRemainingFlags + 1 }
      else s
    let s1 := setState s0 pos .Open
    let mineCount := (nbrs.filter (fun q => isMine s1 q)).length
    let s2 := if mineCount = 0 then
        nbrs.foldl (fun acc q => if isEmpty acc q then openCell fuel q acc else acc) s1
      else s1
    let s3 := { s2 with remainingClearCells := s2.remainingClearCells - 1 }
    if s3.remainingClearCells = 0 then { s3 with wins := s3.wins + 1 } else s3

/-- The flood step of `openCell`: open each listed neighbor that is still
empty, threading the state left to right.  (The fold in the successor case
of `openCell` is exactly this function.) -/
def openAll (fuel : Nat) (qs : List Vec2) (s : GameState) : GameState :=
  qs.foldl (fun acc q => if isEmpty acc q then openCell fuel q acc else acc) s

/-- `openCell` at its call sites: fuel one more than the grid size, which
exceeds the number of unopened cells. -/
def openCellTop (s : GameState) (pos : Vec2) : GameState :=
  openCell (s.grid.length + 1) pos s

/-- Number of `Close` cells on the grid. -/
def countClose (s : GameState) : Nat :=
  s.grid.countP (fun c => match c with | .Close _ => true | _ => false)

/-- Number of `Mine` cells on the grid. -/
def countMine (s : GameState) : Nat :=
  s.grid.countP (fun c => match c with | .Mine _ _ => true | _ => false)

/-- Number of `Open` cells on the grid. -/
def countOpen (s : GameState) : Nat :=
  s.grid.countP (fun c => match c with | .Open => true | _ => false)

/-- The state of a successful `Except` run (the input default otherwise). -/
def runState (e : Except String (GameState × List Nat)) : GameState :=
  match e with
  | .ok (s, _) => s
  | .error _ => initGame 0 0

/-- The remaining tape of a successful `Except` run. -/
def runTape (e : Except String (GameState × List Nat)) : List Nat :=
  match e with
  | .ok (_, t) => t
  | .error _ => []

/-- Whether an `Except` run succeeded. -/
def isOkRun (e : Except String (GameState × List Nat)) : Bool :=
  match e with
  | .ok _ => true
  | .error _ => false

/-- The accepted position of a successful `placeLoop` run. -/
def plPos (e : Except String (Vec2 × GameState × List Nat)) : Vec2 :=
  match e with
  | .ok (p, _, _) => p
  | .error _ => ⟨0, 0⟩

/-- The state of a successful `placeLoop` run. -/
def plState (e : Except String (Vec2 × GameState × List Nat)) : GameState :=
  match e with
  | .ok (_, s, _) => s
  | .error _ => initGame 0 0

/-- The remaining tape of a successful `placeLoop` run. -/
def plTape (e : Except String (Vec2 × GameState × List Nat)) : List Nat :=
  match e with
  | .ok (_, _, t) => t
  | .error _ => []

/-- Number of in-field mine cells whose id differs from `newId`: the measure
recolored by `updateId`. -/
def countBad (s : GameState) (newId : Nat) : Nat :=
  s.grid.countP (fun c => match c with
    | .Mine j _ => !(j == some newId)
    | _ => false)

/-- One cell is either unchanged or a mine recolored to `newId`. -/
def CellRecolor (newId : Nat) (c c' : Cell) : Prop :=
  c' = c ∨ ∃ j f, c = .Mine j f ∧ c' = .Mine (some newId) f

/-- `s'` agrees with `s` except that some mine cells have been recolored to
`newId`: the shape of the change made by `setId` and `updateId`. -/
def GridRecolor (newId : Nat) (s s' : GameState) : Prop :=
  s'.dimension = s.dimension ∧ s'.totalMines = s.totalMines ∧
  s'.minables = s.minables ∧ s'.currentId = s.currentId ∧
  s'.remainingClearCells = s.remainingClearCells ∧
  s'.numRemainingFlags = s.numRemainingFlags ∧ s'.wins = s.wins ∧
  List.Forall₂ (CellRecolor newId) s.grid s'.grid

/-- The cluster closure invariant: two orthogonally-adjacent in-field mine
cells always carry the same group id. -/
def ClusterInv (s : GameState) : Prop :=
  ∀ p dir, dir ∈ ORTHO_DIRS → isOutsideField s p = false →
    isOutsideField s (p.add dir) = false →
    isMine s p = true → isMine s (p.add dir) = true →
    getId s p = getId s (p.add dir)

/-- The generation-phase state invariant: the grid has `dimension²` cells
and no `Open` cell, the eligible pool consists of distinct, in-field,
untouched `Close` cells away from the first click, every mine is away from
the first click, and the cluster closure invariant holds. -/
structure StInv (click : Vec2) (s : GameState) : Prop where
  len : s.grid.length = s.dimension * s.dimension
  noOpen : ∀ c ∈ s.grid, c ≠ Cell.Open
  nodup : s.minables.Nodup
  pool : ∀ p ∈ s.minables, isOutsideField s p = false ∧
    getState s p = some (Cell.Close false) ∧ click.adjacentTo p = false
  mines : ∀ p, isOutsideField s p = false → isMine s p = true →
    click.adjacentTo p = false
  cluster : ClusterInv s

/-- The no-full-surround invariant: every in-field non-mine cell has an
in-field neighbor that is not a mine. -/
def SurInv (s : GameState) : Prop :=
  ∀ p, isOutsideField s p = false → isMine s p = false →
    ∃ q, q ∈ neighbors s p ∧ isMine s q = false

/-- One step of 8-connectivity between two distinct in-field non-mine
cells. -/
def emptyAdj (s : GameState) (a b : Vec2) : Prop :=
  isOutsideField s a = false ∧ isOutsideField s b = false ∧
  isMine s a = false ∧ isMine s b = false ∧ a ≠ b ∧ a.adjacentTo b = true

/-- 8-connectivity between non-mine cells. -/
def EmptyConnected (s : GameState) (a b : Vec2) : Prop :=
  Relation.ReflTransGen (emptyAdj s) a b

/-- The non-mine cells form a single 8-connected component. -/
def SingleEmptyComponent (s : GameState) : Prop :=
  ∀ a b, isOutsideField s a = false → isMine s a = false →
    isOutsideField s b = false → isMine s b = false → EmptyConnected s a b

/-- A sequence of `openCell` calls is valid when each position is an
in-field `Close` (hence non-mine) cell at the moment it is opened. -/
inductive ValidSeq : GameState → List Vec2 → Prop where
  | nil (s : GameState) : ValidSeq s []
  | cons (s : GameState) (p : Vec2) (ps : List Vec2)
      (hin : isOutsideField s p = false)
      (hclose : isEmpty s p = true)
      (hrest : ValidSeq (openCellTop s p) ps) : ValidSeq s (p :: ps)

/-- Run a sequence of `openCell` calls. -/
def play (s : GameState) (ps : List Vec2) : GameState :=
  ps.foldl openCellTop s

/-- The bookkeeping relation between the state at entry and at exit of one
`openCell` call (or one flood sweep): the geometry and generation fields are
untouched, cells only move from `Close` to `Open`, the remaining-clear-cell
counter stays `w` ahead of the number of `Close` cells (`w` counts the
pending decrements of the enclosing calls), and the win counter advances
exactly when the last `Close` cell disappears while no decrement is
pending. -/
def OpenStep (s r : GameState) (w : Int) : Prop :=
  r.dimension = s.dimension ∧ r.totalMines = s.totalMines ∧
  r.minables = s.minables ∧ r.currentId = s.currentId ∧
  r.grid.length = s.grid.length ∧
  countMine r = countMine s ∧
  countOpen r + countClose r = countOpen s + countClose s ∧
  countClose r ≤ countClose s ∧
  r.remainingClearCells = (countClose r : Int) + w ∧
  r.wins = s.wins + (if w = 0 ∧ countClose r = 0 then 1 else 0)

/-- Claim C6 as stated: a mine accepted with no orthogonally-adjacent mine
receives a fresh id — one that is not the out-of-bounds sentinel 0 and not
the id of any existing mine. -/
def C6AsStated : Prop :=
  ∀ s tape pos s1 t1, placeLoop s.minables.length s tape = .ok (pos, s1, t1) →
    (∀ dir ∈ ORTHO_DIRS, isMine s1 (pos.add dir) = false) →
    ∃ k, getId (assignId s1 pos) pos = some k ∧ k ≠ 0 ∧
      ∀ q, q ≠ pos → isOutsideField s1 q = false → isMine s1 q = true →
        getId s1 q ≠ some k

/-- Claim C8 as stated: `openCell` on an `Open` cell leaves the grid and the
three counters unchanged. -/
def C8AsStated : Prop :=
  ∀ s pos, isOutsideField s pos = false → getState s pos = some Cell.Open →
    (openCellTop s pos).grid = s.grid ∧
    (openCellTop s pos).remainingClearCells = s.remainingClearCells ∧
    (openCellTop s pos).numRemainingFlags = s.numRemainingFlags ∧
    (openCellTop s pos).wins = s.wins


/-- The island run after 0 accepted placements. -/
def islandState0 : GameState :=
  ⟨6, 6,
   [Cell.Close false, Cell.Close false, Cell.Close false, Cell.Close false, Cell.Close false, Cell.Close false,
    Cell.Close false, Cell.Close false, Cell.Close false, Cell.Close false, Cell.Close false, Cell.Close false,
    Cell.Close false, Cell.Close false, Cell.Close false, Cell.Close false, Cell.Close false, Cell.Close false,
    Cell.Close false, Cell.Close false, Cell.Close false, Cell.Close false, Cell.Close false, Cell.Close false,
    Cell.Close false, Cell.Close false, Cell.Close false, Cell.Close false, Cell.Close false, Cell.Close false,
    Cell.Close false, Cell.Close false, Cell.Close false, Cell.Close false, Cell.Close false, Cell.Close false],
   [⟨2, 0⟩, ⟨3, 0⟩, ⟨4, 0⟩, ⟨5, 0⟩, ⟨2, 1⟩, ⟨3, 1⟩, ⟨4, 1⟩, ⟨5, 1⟩, ⟨0, 2⟩, ⟨1, 2⟩, ⟨2, 2⟩, ⟨3, 2⟩, ⟨4, 2⟩, ⟨5, 2⟩, ⟨0, 3⟩, ⟨1, 3⟩, ⟨2, 3⟩, ⟨3, 3⟩, ⟨4, 3⟩, ⟨5, 3⟩, ⟨0, 4⟩, ⟨1, 4⟩, ⟨2, 4⟩, ⟨3, 4⟩, ⟨4, 4⟩, ⟨5, 4⟩, ⟨0, 5⟩, ⟨1, 5⟩, ⟨2, 5⟩, ⟨3, 5⟩, ⟨4, 5⟩, ⟨5, 5⟩],
   1, 30, 6, 0⟩

/-- The island run after 1 accepted placements. -/
def islandState1 : GameState :=
  ⟨6, 6,
   [Cell.Close false, Cell.Close false, Cell.Close false, Cell.Close false, Cell.Close false, Cell.Close false,
    Cell.Close false, Cell.Close false, Cell.Close false, Cell.Close false, Cell.Close false, Cell.Mine (some 0) false,
    Cell.Close false, Cell.Close false, Cell.Close false, Cell.Close false, Cell.Close false, Cell.Close false,
    Cell.Close false, Cell.Close false, Cell.Close false, Cell.Close false, Cell.Close false, Cell.Close false,
    Cell.Close false, Cell.Close false, Cell.Close false, Cell.Close false, Cell.Close false, Cell.Close false,
    Cell.Close false, Cell.Close false, Cell.Close false, Cell.Close false, Cell.Close false, Cell.Close false],
   [⟨2, 0⟩, ⟨3, 0⟩, ⟨4, 0⟩, ⟨5, 0⟩, ⟨2, 1⟩, ⟨3, 1⟩, ⟨4, 1⟩, ⟨0, 2⟩, ⟨1, 2⟩, ⟨2, 2⟩, ⟨3, 2⟩, ⟨4, 2⟩, ⟨5, 2⟩, ⟨0, 3⟩, ⟨1, 3⟩, ⟨2, 3⟩, ⟨3, 3⟩, ⟨4, 3⟩, ⟨5, 3⟩, ⟨0, 4⟩, ⟨1, 4⟩, ⟨2, 4⟩, ⟨3, 4⟩, ⟨4, 4⟩, ⟨5, 4⟩, ⟨0, 5⟩, ⟨1, 5⟩, ⟨2, 5⟩, ⟨3, 5⟩, ⟨4, 5⟩, ⟨5, 5⟩],
   2, 30, 6, 0⟩

/-- The island run after 2 accepted placements. -/
def islandState2 : GameState :=
  ⟨6, 6,
   [Cell.Close false, Cell.Close false, Cell.Close false, Cell.Close false, Cell.Close false, Cell.Close false,
    Cell.Close false, Cell.Close false, Cell.Close false, Cell.Close false, Cell.Close false, Cell.Mine (some 0) false,
    Cell.Close false, Cell.Close false, Cell.Close false, Cell.Close false, Cell.Close false, Cell.Close false,
    Cell.Close false, Cell.Close false, Cell.Close false, Cell.Close false, Cell.Close false, Cell.Close false,
    Cell.Close false, Cell.Close false, Cell.Close false, Cell.Close false, Cell.Close false, Cell.Mine (some 0) false,
    Cell.Close false, Cell.Close false, Cell.Close false, Cell.Close false, Cell.Close false, Cell.Close false],
   [⟨2, 0⟩, ⟨3, 0⟩, ⟨4, 0⟩, ⟨5, 0⟩, ⟨2, 1⟩, ⟨3, 1⟩, ⟨4, 1⟩, ⟨0, 2⟩, ⟨1, 2⟩, ⟨2, 2⟩, ⟨3, 2⟩, ⟨4, 2⟩, ⟨5, 2⟩, ⟨0, 3⟩, ⟨1, 3⟩, ⟨2, 3⟩, ⟨3, 3⟩, ⟨4, 3⟩, ⟨5, 3⟩, ⟨0, 4⟩, ⟨1, 4⟩, ⟨2, 4⟩, ⟨3, 4⟩, ⟨4, 4⟩, ⟨0, 5⟩, ⟨1, 5⟩, ⟨2, 5⟩, ⟨3, 5⟩, ⟨4, 5⟩, ⟨5, 5⟩],
   3, 30, 6, 0⟩

/-- The island run after 3 accepted placements. -/
def islandState3 : GameState :=
  ⟨6, 6,
   [Cell.Close false, Cell.Close false, Cell.Close false, Cell.Close false, Cell.Close false, Cell.Close false,
    Cell.Close false, Cell.Close false, Cell.Close false, Cell.Close false, Cell.Mine (some 0) false, Cell.Mine (some 0) false,
    Cell.Close false, Cell.Close false, Cell.Close false, Cell.Close false, Cell.Close false, Cell.Close false,
    Cell.Close false, Cell.Close false, Cell.Close false, Cell.Close false, Cell.Close false, Cell.Close false,
    Cell.Close false, Cell.Close false, Cell.Close false, Cell.Close false, Cell.Close false, Cell.Mine (some 0) false,
    Cell.Close false, Cell.Close false, Cell.Close false, Cell.Close false, Cell.Close false, Cell.Close false],
   [⟨2, 0⟩, ⟨3, 0⟩, ⟨4, 0⟩, ⟨5, 0⟩, ⟨2, 1⟩, ⟨3, 1⟩, ⟨0, 2⟩, ⟨1, 2⟩, ⟨2, 2⟩, ⟨3, 2⟩, ⟨4, 2⟩, ⟨5, 2⟩, ⟨0, 3⟩, ⟨1, 3⟩, ⟨2, 3⟩, ⟨3, 3⟩, ⟨4, 3⟩, ⟨5, 3⟩, ⟨0, 4⟩, ⟨1, 4⟩, ⟨2, 4⟩, ⟨3, 4⟩, ⟨4, 4⟩, ⟨0, 5⟩, ⟨1, 5⟩, ⟨2, 5⟩, ⟨3, 5⟩, ⟨4, 5⟩, ⟨5, 5⟩],
   4, 30, 6, 0⟩

/-- The island run after 4 accepted placements. -/
def islandState4 : GameState :=
  ⟨6, 6,
   [Cell.Close false, Cell.Close false, Cell.Close false, Cell.Close false, Cell.Close false, Cell.Close false,
    Cell.Close false, Cell.Close false, Cell.Close false, Cell.Close false, Cell.Mine (some 0) false, Cell.Mine (some 0) false,
    Cell.Close false, Cell.Close false, Cell.Close false, Cell.Close false, Cell.Mine (some 0) false, Cell.Close false,
    Cell.Close false, Cell.Close false, Cell.Close false, Cell.Close false, Cell.Close false, Cell.Close false,
    Cell.Close false, Cell.Close false, Cell.Close false, Cell.Close false, Cell.Close false, Cell.Mine (some 0) false,
    Cell.Close false, Cell.Close false, Cell.Close false, Cell.Close false, Cell.Close false, Cell.Close false],
   [⟨2, 0⟩, ⟨3, 0⟩, ⟨4, 0⟩, ⟨5, 0⟩, ⟨2, 1⟩, ⟨3, 1⟩, ⟨0, 2⟩, ⟨1, 2⟩, ⟨2, 2⟩, ⟨3, 2⟩, ⟨5, 2⟩, ⟨0, 3⟩, ⟨1, 3⟩, ⟨2, 3⟩, ⟨3, 3⟩, ⟨4, 3⟩, ⟨5, 3⟩, ⟨0, 4⟩, ⟨1, 4⟩, ⟨2, 4⟩, ⟨3, 4⟩, ⟨4, 4⟩, ⟨0, 5⟩, ⟨1, 5⟩, ⟨2, 5⟩, ⟨3, 5⟩, ⟨4, 5⟩, ⟨5, 5⟩],
   5, 30, 6, 0⟩

/-- The island run after 5 accepted placements. -/
def islandState5 : GameState :=
  ⟨6, 6,
   [Cell.Close false, Cell.Close false, Cell.Close false, Cell.Close false, Cell.Close false, Cell.Close false,
    Cell.Close false, Cell.Close false, Cell.Close false, Cell.Close false, Cell.Mine (some 0) false, Cell.Mine (some 0) false,
    Cell.Close false, Cell.Close false, Cell.Close false, Cell.Close false, Cell.Mine (some 0) false, Cell.Close false,
    Cell.Close false, Cell.Close false, Cell.Close false, Cell.Close false, Cell.Mine (some 0) false, Cell.Close false,
    Cell.Close false, Cell.Close false, Cell.Close false, Cell.Close false, Cell.Close false, Cell.Mine (some 0) false,
    Cell.Close false, Cell.Close false, Cell.Close false, Cell.Close false, Cell.Close false, Cell.Close false],
   [⟨2, 0⟩, ⟨3, 0⟩, ⟨4, 0⟩, ⟨5, 0⟩, ⟨2, 1⟩, ⟨3, 1⟩, ⟨0, 2⟩, ⟨1, 2⟩, ⟨2, 2⟩, ⟨3, 2⟩, ⟨5, 2⟩, ⟨0, 3⟩, ⟨1, 3⟩, ⟨2, 3⟩, ⟨3, 3⟩, ⟨5, 3⟩, ⟨0, 4⟩, ⟨1, 4⟩, ⟨2, 4⟩, ⟨3, 4⟩, ⟨4, 4⟩, ⟨0, 5⟩, ⟨1, 5⟩, ⟨2, 5⟩, ⟨3, 5⟩, ⟨4, 5⟩, ⟨5, 5⟩],
   6, 30, 6, 0⟩

/-- The island run after 6 accepted placements. -/
def islandState6 : GameState :=
  ⟨6, 6,
   [Cell.Close false, Cell.Close false, Cell.Close false, Cell.Close false, Cell.Close false, Cell.Close false,
    Cell.Close false, Cell.Close false, Cell.Close false, Cell.Close false, Cell.Mine (some 0) false, Cell.Mine (some 0) false,
    Cell.Close false, Cell.Close false, Cell.Close false, Cell.Close false, Cell.Mine (some 0) false, Cell.Close false,
    Cell.Close false, Cell.Close false, Cell.Close false, Cell.Close false, Cell.Mine (some 0) false, Cell.Close false,
    Cell.Close false, Cell.Close false, Cell.Close false, Cell.Close false, Cell.Mine (some 0) false, Cell.Mine (some 0) false,
    Cell.Close false, Cell.Close false, Cell.Close false, Cell.Close false, Cell.Close false, Cell.Close false],
   [⟨2, 0⟩, ⟨3, 0⟩, ⟨4, 0⟩, ⟨5, 0⟩, ⟨2, 1⟩, ⟨3, 1⟩, ⟨0, 2⟩, ⟨1, 2⟩, ⟨2, 2⟩, ⟨3, 2⟩, ⟨5, 2⟩, ⟨0, 3⟩, ⟨1, 3⟩, ⟨2, 3⟩, ⟨3, 3⟩, ⟨5, 3⟩, ⟨0, 4⟩, ⟨1, 4⟩, ⟨2, 4⟩, ⟨3, 4⟩, ⟨0, 5⟩, ⟨1, 5⟩, ⟨2, 5⟩, ⟨3, 5⟩, ⟨4, 5⟩, ⟨5, 5⟩],
   7, 30, 6, 0⟩

/-! ## Basic facts about positions, indices and state access -/

theorem Vec2.add_negate (p d : Vec2) : (p.add d).add d.negate = p := by
  cases p; cases d
  simp only [Vec2.add, Vec2.negate, Vec2.mk.injEq]
  omega

theorem isOutsideField_eq_false {s : GameState} {p : Vec2} :
    isOutsideField s p = false ↔
      0 ≤ p.x ∧ p.x < (s.dimension : Int) ∧ 0 ≤ p.y ∧ p.y < (s.dimension : Int) := by
  simp only [isOutsideField, Bool.or_eq_false_iff, decide_eq_false_iff_not, not_lt, not_le]
  omega

theorem isOutsideField_congr {s s' : GameState} (h : s'.dimension = s.dimension)
    (p : Vec2) : isOutsideField s' p = isOutsideField s p := by
  simp [isOutsideField, h]

theorem neighbors_congr {s s' : GameState} (h : s'.dimension = s.dimension)
    (p : Vec2) : neighbors s' p = neighbors s p := by
  simp [neighbors, isOutsideField_congr h]

theorem cellIndex_nonneg {s : GameState} {p : Vec2}
    (h : isOutsideField s p = false) : 0 ≤ cellIndex s p := by
  rw [isOutsideField_eq_false] at h
  have hy : 0 ≤ p.y * (s.dimension : Int) := mul_nonneg h.2.2.1 (by positivity)
  simp only [cellIndex]
  linarith [h.1]

theorem cellIndex_lt {s : GameState} {p : Vec2}
    (h : isOutsideField s p = false) :
    cellIndex s p < (s.dimension : Int) * (s.dimension : Int) := by
  rw [isOutsideField_eq_false] at h
  obtain ⟨hx0, hxd, hy0, hyd⟩ := h
  have h1 : p.y * (s.dimension : Int) ≤ ((s.dimension : Int) - 1) * (s.dimension : Int) :=
    mul_le_mul_of_nonneg_right (by omega) (by omega)
  simp only [cellIndex]
  nlinarith

theorem cellIndex_toNat_lt {s : GameState} {p : Vec2}
    (h : isOutsideField s p = false) :
    (cellIndex s p).toNat < s.dimension * s.dimension := by
  have h0 := cellIndex_nonneg h
  have h1 := cellIndex_lt h
  have : ((s.dimension * s.dimension : Nat) : Int) = (s.dimension : Int) * (s.dimension : Int) := by
    push_cast; ring
  omega

theorem cellIndex_inj {s : GameState} {p q : Vec2}
    (hp : isOutsideField s p = false) (hq : isOutsideField s q = false)
    (h : cellIndex s p = cellIndex s q) : p = q := by
  rw [isOutsideField_eq_false] at hp hq
  obtain ⟨hx0, hxd, hy0, hyd⟩ := hp
  obtain ⟨hx0', hxd', hy0', hyd'⟩ := hq
  simp only [cellIndex] at h
  have hy : p.y = q.y := by
    by_contra hne
    rcases lt_or_gt_of_ne hne with hlt | hlt
    · have h1 : (p.y + 1) * (s.dimension : Int) ≤ q.y * (s.dimension : Int) :=
        mul_le_mul_of_nonneg_right (by omega) (by omega)
      rw [add_mul, one_mul] at h1
      linarith
    · have h1 : (q.y + 1) * (s.dimension : Int) ≤ p.y * (s.dimension : Int) :=
        mul_le_mul_of_nonneg_right (by omega) (by omega)
      rw [add_mul, one_mul] at h1
      linarith
  have hx : p.x = q.x := by
    rw [hy] at h
    omega
  cases p; cases q
  simp_all

theorem cellIndex_congr {s s' : GameState} (h : s'.dimension = s.dimension)
    (p : Vec2) : cellIndex s' p = cellIndex s p := by
  simp [cellIndex, h]

theorem getState_of_inField {s : GameState} {p : Vec2}
    (h : isOutsideField s p = false) :
    getState s p = s.grid.get? (cellIndex s p).toNat := by
  simp [getState, cellIndex_nonneg h]

theorem getState_isSome {s : GameState} {p : Vec2}
    (h : isOutsideField s p = false)
    (hlen : s.grid.length = s.dimension * s.dimension) :
    ∃ c, getState s p = some c := by
  rw [getState_of_inField h]
  have := cellIndex_toNat_lt h
  rw [List.get?_eq_getElem?]
  exact ⟨_, List.getElem?_eq_getElem (by omega)⟩

theorem setState_dimension (s : GameState) (p : Vec2) (c : Cell) :
    (setState s p c).dimension = s.dimension := by
  by_cases h : 0 ≤ cellIndex s p <;> simp [setState, h]

theorem setState_totalMines (s : GameState) (p : Vec2) (c : Cell) :
    (setState s p c).totalMines = s.totalMines := by
  by_cases h : 0 ≤ cellIndex s p <;> simp [setState, h]

theorem setState_minables (s : GameState) (p : Vec2) (c : Cell) :
    (setState s p c).minables = s.minables := by
  by_cases h : 0 ≤ cellIndex s p <;> simp [setState, h]

theorem setState_currentId (s : GameState) (p : Vec2) (c : Cell) :
    (setState s p c).currentId = s.currentId := by
  by_cases h : 0 ≤ cellIndex s p <;> simp [setState, h]

theorem setState_remainingClearCells (s : GameState) (p : Vec2) (c : Cell) :
    (setState s p c).remainingClearCells = s.remainingClearCells := by
  by_cases h : 0 ≤ cellIndex s p <;> simp [setState, h]

theorem setState_numRemainingFlags (s : GameState) (p : Vec2) (c : Cell) :
    (setState s p c).numRemainingFlags = s.numRemainingFlags := by
  by_cases h : 0 ≤ cellIndex s p <;> simp [setState, h]

theorem setState_wins (s : GameState) (p : Vec2) (c : Cell) :
    (setState s p c).wins = s.wins := by
  by_cases h : 0 ≤ cellIndex s p <;> simp [setState, h]

theorem setState_grid_length (s : GameState) (p : Vec2) (c : Cell) :
    (setState s p c).grid.length = s.grid.length := by
  by_cases h : 0 ≤ cellIndex s p <;> simp [setState, h]

theorem setState_grid {s : GameState} {p : Vec2} (c : Cell)
    (h : isOutsideField s p = false) :
    (setState s p c).grid = s.grid.set (cellIndex s p).toNat c := by
  simp [setState, cellIndex_nonneg h]

theorem getState_setState_self {s : GameState} {p : Vec2} (c : Cell)
    (h : isOutsideField s p = false)
    (hlen : s.grid.length = s.dimension * s.dimension) :
    getState (setState s p c) p = some c := by
  have h' : isOutsideField (setState s p c) p = false := by
    rw [isOutsideField_congr (setState_dimension s p c)]; exact h
  rw [getState_of_inField h', setState_grid c h,
    cellIndex_congr (setState_dimension s p c), List.get?_eq_getElem?]
  exact List.getElem?_set_self (by rw [hlen]; exact cellIndex_toNat_lt h)

theorem getState_setState_ne {s : GameState} {p q : Vec2} (c : Cell)
    (hp : isOutsideField s p = false) (hq : isOutsideField s q = false)
    (hne : q ≠ p) :
    getState (setState s p c) q = getState s q := by
  have hq' : isOutsideField (setState s p c) q = false := by
    rw [isOutsideField_congr (setState_dimension s p c)]; exact hq
  rw [getState_of_inField hq', setState_grid c hp,
    cellIndex_congr (setState_dimension s p c), getState_of_inField hq,
    List.get?_eq_getElem?, List.get?_eq_getElem?]
  refine List.getElem?_set_ne ?_
  intro hcontra
  refine hne (cellIndex_inj hq hp ?_)
  have h1 := cellIndex_nonneg hp
  have h2 := cellIndex_nonneg hq
  omega

/-! ## The recoloring relation and its consequences -/

theorem forall2_get_rel {α β : Type} {R : α → β → Prop} {l : List α}
    {l' : List β} (h : List.Forall₂ R l l') (n : Nat) :
    (l.get? n = none ∧ l'.get? n = none) ∨
      ∃ a b, l.get? n = some a ∧ l'.get? n = some b ∧ R a b := by
  induction h generalizing n with
  | nil => left; simp
  | cons hab htail ih =>
    cases n with
    | zero => right; exact ⟨_, _, rfl, rfl, hab⟩
    | succ n => simpa using ih n

theorem cellRecolor_trans {v : Nat} {a b c : Cell}
    (h1 : CellRecolor v a b) (h2 : CellRecolor v b c) : CellRecolor v a c := by
  rcases h1 with rfl | ⟨j, f, rfl, rfl⟩
  · exact h2
  · rcases h2 with rfl | ⟨j2, f2, heq, rfl⟩
    · exact Or.inr ⟨j, f, rfl, rfl⟩
    · cases heq
      exact Or.inr ⟨j, f, rfl, rfl⟩

theorem forall2_trans_cellRecolor {v : Nat} {l l' l'' : List Cell}
    (h1 : List.Forall₂ (CellRecolor v) l l')
    (h2 : List.Forall₂ (CellRecolor v) l' l'') :
    List.Forall₂ (CellRecolor v) l l'' := by
  induction h1 generalizing l'' with
  | nil => cases h2; exact List.Forall₂.nil
  | cons hab htail ih =>
    cases h2 with
    | cons hbc htail2 =>
      exact List.Forall₂.cons (cellRecolor_trans hab hbc) (ih htail2)

theorem countP_le_of_forall2 {α : Type} {R : α → α → Prop} {p : α → Bool}
    (hImp : ∀ a b, R a b → p b = true → p a = true) {l l' : List α}
    (h : List.Forall₂ R l l') : l'.countP p ≤ l.countP p := by
  induction h with
  | nil => simp
  | cons hab htail ih =>
    rename_i a b l1 l2
    simp only [List.countP_cons]
    by_cases hb : p b = true
    · have ha := hImp _ _ hab hb
      simp [hb, ha]; omega
    · simp only [Bool.not_eq_true] at hb
      simp [hb]; omega

theorem gridRecolor_refl {v : Nat} (s : GameState) : GridRecolor v s s := by
  refine ⟨rfl, rfl, rfl, rfl, rfl, rfl, rfl, ?_⟩
  refine List.forall₂_same.mpr ?_
  intro c _
  exact Or.inl rfl

theorem GridRecolor.trans {v : Nat} {s1 s2 s3 : GameState}
    (h1 : GridRecolor v s1 s2) (h2 : GridRecolor v s2 s3) :
    GridRecolor v s1 s3 := by
  obtain ⟨a1, a2, a3, a4, a5, a6, a7, a8⟩ := h1
  obtain ⟨b1, b2, b3, b4, b5, b6, b7, b8⟩ := h2
  exact ⟨b1.trans a1, b2.trans a2, b3.trans a3, b4.trans a4, b5.trans a5,
    b6.trans a6, b7.trans a7, forall2_trans_cellRecolor a8 b8⟩

theorem GridRecolor.grid_length {v : Nat} {s s' : GameState}
    (h : GridRecolor v s s') : s'.grid.length = s.grid.length :=
  h.2.2.2.2.2.2.2.length_eq.symm

theorem GridRecolor.getState_rel {v : Nat} {s s' : GameState}
    (h : GridRecolor v s s') (p : Vec2) :
    getState s' p = getState s p ∨
      ∃ j f, getState s p = some (Cell.Mine j f) ∧
        getState s' p = some (Cell.Mine (some v) f) := by
  obtain ⟨hdim, -, -, -, -, -, -, hgrid⟩ := h
  simp only [getState, cellIndex_congr hdim]
  by_cases hi : 0 ≤ cellIndex s p
  · simp only [hi, if_pos]
    rcases forall2_get_rel hgrid (cellIndex s p).toNat with ⟨ha, hb⟩ | ⟨a, b, ha, hb, hr⟩
    · rw [ha, hb]; exact Or.inl rfl
    · rw [ha, hb]
      rcases hr with rfl | ⟨j, f, rfl, rfl⟩
      · exact Or.inl rfl
      · exact Or.inr ⟨j, f, rfl, rfl⟩
  · simp [hi]

theorem GridRecolor.isMine_eq {v : Nat} {s s' : GameState}
    (h : GridRecolor v s s') (p : Vec2) : isMine s' p = isMine s p := by
  rcases h.getState_rel p with heq | ⟨j, f, h1, h2⟩
  · simp [isMine, heq]
  · simp [isMine, h1, h2]

theorem GridRecolor.isEmpty_eq {v : Nat} {s s' : GameState}
    (h : GridRecolor v s s') (p : Vec2) : isEmpty s' p = isEmpty s p := by
  have hdim := h.1
  rcases h.getState_rel p with heq | ⟨j, f, h1, h2⟩
  · simp [isEmpty, heq, isOutsideField_congr hdim]
  · simp [isEmpty, h1, h2, isOutsideField_congr hdim]

theorem getId_of_outside {s : GameState} {p : Vec2}
    (h : isOutsideField s p = true) : getId s p = some 0 := by
  simp [getId, h]

theorem GridRecolor.getId_mono {v : Nat} {s s' : GameState}
    (h : GridRecolor v s s') {p : Vec2} (hc : getId s p = some v) :
    getId s' p = some v := by
  have hdim := h.1
  by_cases ho : isOutsideField s p = true
  · rw [getId_of_outside ho] at hc
    rw [getId_of_outside (by rw [isOutsideField_congr hdim]; exact ho)]
    exact hc
  · rw [Bool.not_eq_true] at ho
    have ho' : isOutsideField s' p = false := by
      rw [isOutsideField_congr hdim]; exact ho
    rcases h.getState_rel p with heq | ⟨j, f, h1, h2⟩
    · simp only [getId, ho, ho', heq, Bool.false_eq_true, if_false] at hc ⊢
      exact hc
    · simp [getId, ho', h2]

theorem GridRecolor.getId_stable {v : Nat} {s s' : GameState}
    (h : GridRecolor v s s') {p : Vec2} (hc : getId s' p ≠ some v) :
    getId s' p = getId s p := by
  have hdim := h.1
  by_cases ho : isOutsideField s p = true
  · rw [getId_of_outside ho, getId_of_outside (by rw [isOutsideField_congr hdim]; exact ho)]
  · rw [Bool.not_eq_true] at ho
    have ho' : isOutsideField s' p = false := by
      rw [isOutsideField_congr hdim]; exact ho
    rcases h.getState_rel p with heq | ⟨j, f, h1, h2⟩
    · simp [getId, ho, ho', heq]
    · exfalso
      apply hc
      simp [getId, ho', h2]

theorem GridRecolor.countBad_le {v : Nat} {s s' : GameState}
    (h : GridRecolor v s s') : countBad s' v ≤ countBad s v := by
  refine countP_le_of_forall2 ?_ h.2.2.2.2.2.2.2
  intro a b hab hb
  rcases hab with rfl | ⟨j, f, rfl, rfl⟩
  · exact hb
  · simp at hb

theorem GridRecolor.noOpen {v : Nat} {s s' : GameState}
    (h : GridRecolor v s s') (hno : ∀ c ∈ s.grid, c ≠ Cell.Open) :
    ∀ c ∈ s'.grid, c ≠ Cell.Open := by
  intro c hc
  have hgrid := h.2.2.2.2.2.2.2
  obtain ⟨i, hi, hget⟩ := List.getElem_of_mem hc
  rcases forall2_get_rel hgrid i with ⟨ha, hb⟩ | ⟨a, b, ha, hb, hr⟩
  · rw [List.get?_eq_getElem?, List.getElem?_eq_getElem hi] at hb
    simp at hb
  · rw [List.get?_eq_getElem?, List.getElem?_eq_getElem hi] at hb
    have hb' : c = b := by rw [← hget]; exact Option.some.inj hb
    have hmem : a ∈ s.grid := by
      rw [List.get?_eq_getElem?] at ha
      exact List.getElem?_mem ha
    subst hb'
    rcases hr with rfl | ⟨j, f, rfl, rfl⟩
    · exact hno _ hmem
    · simp

/-! ## Facts about `setId` -/

theorem forall2_set {α : Type} {R : α → α → Prop} (hrefl : ∀ c, R c c) :
    ∀ (l : List α) (n : Nat) {a b : α}, l.get? n = some a → R a b →
      List.Forall₂ R l (l.set n b)
  | [], n, a, b, h, _ => by simp at h
  | c :: t, 0, a, b, h, hr => by
    simp only [List.get?_cons_zero, Option.some.injEq] at h
    subst h
    exact List.Forall₂.cons hr (List.forall₂_same.mpr (fun c _ => hrefl c))
  | c :: t, n+1, a, b, h, hr => by
    simp only [List.get?_cons_succ] at h
    exact List.Forall₂.cons (hrefl c) (forall2_set hrefl t n h hr)

theorem cellIndex_mk_grid (s : GameState) (g : List Cell) (p : Vec2) :
    cellIndex { s with grid := g } p = cellIndex s p := rfl

theorem isOutsideField_mk_grid (s : GameState) (g : List Cell) (p : Vec2) :
    isOutsideField { s with grid := g } p = isOutsideField s p := rfl

theorem getState_mk_grid (s : GameState) (g : List Cell) (p : Vec2) :
    getState { s with grid := g } p =
      (if 0 ≤ cellIndex s p then g.get? (cellIndex s p).toNat else none) := rfl

theorem setId_grid_of_mine {s : GameState} {p : Vec2} {v : Nat} {j : Option Nat}
    {f : Bool} (hi : isOutsideField s p = false)
    (hm : getState s p = some (Cell.Mine j f)) :
    setId s p v =
      { s with grid := s.grid.set (cellIndex s p).toNat (Cell.Mine (some v) f) } := by
  have h0 := cellIndex_nonneg hi
  rw [getState_of_inField hi, List.get?_eq_getElem?] at hm
  simp [setId, h0, hm]

theorem setId_eq_self_of_not_mine {s : GameState} {p : Vec2} {v : Nat}
    (hm : ∀ j f, getState s p ≠ some (Cell.Mine j f)) : setId s p v = s := by
  by_cases hi : 0 ≤ cellIndex s p
  · rcases hg : s.grid[(cellIndex s p).toNat]? with - | c
    · simp [setId, hi, hg]
    · cases c with
      | Open => simp [setId, hi, hg]
      | Close f => simp [setId, hi, hg]
      | Mine j f =>
        exfalso
        exact hm j f (by simp [getState, hi, List.get?_eq_getElem?, hg])
  · simp [setId, hi]

theorem setId_recolor (s : GameState) (p : Vec2) (v : Nat) :
    GridRecolor v s (setId s p v) := by
  by_cases hi : 0 ≤ cellIndex s p
  · rcases hg : s.grid[(cellIndex s p).toNat]? with - | c
    · have hs : setId s p v = s := by simp [setId, hi, hg]
      rw [hs]; exact gridRecolor_refl s
    · cases c with
      | Open =>
        have hs : setId s p v = s := by simp [setId, hi, hg]
        rw [hs]; exact gridRecolor_refl s
      | Close f =>
        have hs : setId s p v = s := by simp [setId, hi, hg]
        rw [hs]; exact gridRecolor_refl s
      | Mine j f =>
        have hs : setId s p v =
            { s with grid := s.grid.set (cellIndex s p).toNat (Cell.Mine (some v) f) } := by
          simp [setId, hi, hg]
        rw [hs]
        refine ⟨rfl, rfl, rfl, rfl, rfl, rfl, rfl, ?_⟩
        rw [← List.get?_eq_getElem?] at hg
        exact forall2_set (R := CellRecolor v) (fun c => Or.inl rfl) s.grid
          (cellIndex s p).toNat hg (Or.inr ⟨j, f, rfl, rfl⟩)
  · have hs : setId s p v = s := by simp [setId, hi]
    rw [hs]; exact gridRecolor_refl s

theorem getState_setId_self {s : GameState} {p : Vec2} {v : Nat} {j : Option Nat}
    {f : Bool} (hi : isOutsideField s p = false)
    (hlen : s.grid.length = s.dimension * s.dimension)
    (hm : getState s p = some (Cell.Mine j f)) :
    getState (setId s p v) p = some (Cell.Mine (some v) f) := by
  rw [setId_grid_of_mine hi hm, getState_mk_grid, if_pos (cellIndex_nonneg hi),
    List.get?_eq_getElem?]
  refine List.getElem?_set_self ?_
  rw [hlen]
  exact cellIndex_toNat_lt hi

theorem getId_setId_self {s : GameState} {p : Vec2} {v : Nat} {j : Option Nat}
    {f : Bool} (hi : isOutsideField s p = false)
    (hlen : s.grid.length = s.dimension * s.dimension)
    (hm : getState s p = some (Cell.Mine j f)) :
    getId (setId s p v) p = some v := by
  have hget := getState_setId_self (v := v) hi hlen hm
  have hi' : isOutsideField (setId s p v) p = false := by
    rw [isOutsideField_congr (setId_recolor s p v).1]; exact hi
  simp [getId, hi', hget]

theorem getState_setId_ne {s : GameState} {p q : Vec2} {v : Nat}
    (hp : isOutsideField s p = false) (hq : isOutsideField s q = false)
    (hne : q ≠ p) : getState (setId s p v) q = getState s q := by
  rcases hg : getState s p with - | c
  · rw [setId_eq_self_of_not_mine (by simp [hg])]
  · cases c with
    | Open => rw [setId_eq_self_of_not_mine (by simp [hg])]
    | Close f => rw [setId_eq_self_of_not_mine (by simp [hg])]
    | Mine j f =>
      rw [setId_grid_of_mine hp hg, getState_mk_grid, if_pos (cellIndex_nonneg hq),
        getState_of_inField hq, List.get?_eq_getElem?, List.get?_eq_getElem?]
      refine List.getElem?_set_ne ?_
      intro hcontra
      refine hne (cellIndex_inj hq hp ?_)
      have h1 := cellIndex_nonneg hp
      have h2 := cellIndex_nonneg hq
      omega

theorem countBad_setId_lt {s : GameState} {p : Vec2} {v : Nat} {j : Option Nat}
    {f : Bool} (hp : isOutsideField s p = false)
    (hlen : s.grid.length = s.dimension * s.dimension)
    (hm : getState s p = some (Cell.Mine j f)) (hid : j ≠ some v) :
    countBad (setId s p v) v < countBad s v := by
  rw [setId_grid_of_mine hp hm]
  have hidx : (cellIndex s p).toNat < s.grid.length := by
    rw [hlen]; exact cellIndex_toNat_lt hp
  have hcell : s.grid[(cellIndex s p).toNat] = Cell.Mine j f := by
    rw [getState_of_inField hp, List.get?_eq_getElem?, List.getElem?_eq_getElem hidx] at hm
    exact Option.some.inj hm
  show List.countP _ (s.grid.set (cellIndex s p).toNat (Cell.Mine (some v) f)) < countBad s v
  rw [List.countP_set _ _ _ _ hidx]
  have hbad : (match s.grid[(cellIndex s p).toNat] with
      | Cell.Mine j _ => !(j == some v)
      | _ => false) = true := by
    rw [hcell]
    simpa using hid
  have hpos : 0 < countBad s v := by
    rw [countBad, List.countP_pos_iff]
    exact ⟨_, List.getElem_mem hidx, hbad⟩
  have hne' : (j == some v) = false := by simpa using hid
  rw [countBad] at hpos ⊢
  simp only [hcell, hne', Bool.not_false, if_true, beq_self_eq_true, Bool.not_true,
    Bool.false_eq_true, if_false]
  omega

/-! ## Shape of `updateId`: it only recolors mine cells -/

theorem updateIdAll_nil (fuel : Nat) (pos : Vec2) (newId : Nat)
    (fromDir : Vec2) (s : GameState) :
    updateIdAll fuel [] pos newId fromDir s = s := rfl

theorem updateIdAll_cons (fuel : Nat) (d : Vec2) (rest : List Vec2)
    (pos : Vec2) (newId : Nat) (fromDir : Vec2) (s : GameState) :
    updateIdAll fuel (d :: rest) pos newId fromDir s =
      updateIdAll fuel rest pos newId fromDir
        (if d = fromDir then s else updateId fuel (pos.add d) newId d.negate s) := by
  rw [updateIdAll, updateIdAll, List.foldl_cons]

theorem updateId_succ_eq (fuel : Nat) (pos : Vec2) (newId : Nat)
    (fromDir : Vec2) (s : GameState) :
    updateId (fuel + 1) pos newId fromDir s =
      if !isOutsideField s pos && getId s pos != some newId then
        updateIdAll fuel
          (ORTHO_DIRS.filter
            (fun dir => isMine (setId s pos newId) (pos.add dir)))
          pos newId fromDir (setId s pos newId)
      else s := rfl

theorem updateIdAll_recolor_of (fuel : Nat)
    (hA : ∀ pos newId fromDir s,
      GridRecolor newId s (updateId fuel pos newId fromDir s)) :
    ∀ (ds : List Vec2) (pos : Vec2) (newId : Nat) (fromDir : Vec2)
      (s : GameState),
      GridRecolor newId s (updateIdAll fuel ds pos newId fromDir s) := by
  intro ds
  induction ds with
  | nil =>
    intro pos newId fromDir s
    rw [updateIdAll_nil]
    exact gridRecolor_refl s
  | cons d rest ih =>
    intro pos newId fromDir s
    rw [updateIdAll_cons]
    have hX : GridRecolor newId s
        (if d = fromDir then s else updateId fuel (pos.add d) newId d.negate s) := by
      split
      · exact gridRecolor_refl s
      · exact hA _ _ _ _
    exact hX.trans (ih pos newId fromDir _)

theorem updateId_recolor :
    ∀ (fuel : Nat) (pos : Vec2) (newId : Nat) (fromDir : Vec2) (s : GameState),
      GridRecolor newId s (updateId fuel pos newId fromDir s) := by
  intro fuel
  induction fuel with
  | zero =>
    intro pos newId fromDir s
    rw [updateId]
    exact gridRecolor_refl s
  | succ fuel ih =>
    intro pos newId fromDir s
    rw [updateId_succ_eq]
    split
    · exact (setId_recolor s pos newId).trans
        (updateIdAll_recolor_of fuel ih _ _ _ _ _)
    · exact gridRecolor_refl s

theorem updateIdAll_recolor (fuel : Nat) (ds : List Vec2) (pos : Vec2)
    (newId : Nat) (fromDir : Vec2) (s : GameState) :
    GridRecolor newId s (updateIdAll fuel ds pos newId fromDir s) :=
  updateIdAll_recolor_of fuel (updateId_recolor fuel) ds pos newId fromDir s

theorem GridRecolor.len_transfer {v : Nat} {s s' : GameState}
    (h : GridRecolor v s s')
    (hlen : s.grid.length = s.dimension * s.dimension) :
    s'.grid.length = s'.dimension * s'.dimension := by
  rw [h.grid_length, h.1, hlen]

/-! ## Small inversion lemmas -/

theorem isMine_iff {s : GameState} {p : Vec2} :
    isMine s p = true ↔ ∃ j f, getState s p = some (Cell.Mine j f) := by
  constructor
  · intro h
    rw [isMine] at h
    rcases hg : getState s p with - | c
    · rw [hg] at h; simp at h
    · cases c with
      | Open => rw [hg] at h; simp at h
      | Close f => rw [hg] at h; simp at h
      | Mine j f => exact ⟨j, f, rfl⟩
  · rintro ⟨j, f, hg⟩
    rw [isMine, hg]

theorem getId_of_inField_mine {s : GameState} {p : Vec2} {j : Option Nat}
    {f : Bool} (hp : isOutsideField s p = false)
    (hm : getState s p = some (Cell.Mine j f)) : getId s p = j := by
  simp [getId, hp, hm]

theorem getId_setId_ne {s : GameState} {p q : Vec2} {v : Nat}
    (hp : isOutsideField s p = false) (hq : isOutsideField s q = false)
    (hne : q ≠ p) : getId (setId s p v) q = getId s q := by
  have hq' : isOutsideField (setId s p v) q = false := by
    rw [isOutsideField_congr (setId_recolor s p v).1]; exact hq
  simp [getId, hq, hq', getState_setId_ne hp hq hne]

theorem countBad_zero_colored {s : GameState} {newId : Nat}
    (h : countBad s newId = 0)
    (hlen : s.grid.length = s.dimension * s.dimension) {p : Vec2}
    (hp : isOutsideField s p = false) (hm : isMine s p = true) :
    getId s p = some newId := by
  obtain ⟨j, f, hg⟩ := isMine_iff.mp hm
  rw [getId_of_inField_mine hp hg]
  by_contra hne
  have hidx : (cellIndex s p).toNat < s.grid.length := by
    rw [hlen]; exact cellIndex_toNat_lt hp
  have hcell : s.grid[(cellIndex s p).toNat] = Cell.Mine j f := by
    rw [getState_of_inField hp, List.get?_eq_getElem?,
      List.getElem?_eq_getElem hidx] at hg
    exact Option.some.inj hg
  have hmem : Cell.Mine j f ∈ s.grid := hcell ▸ List.getElem_mem hidx
  rw [countBad, List.countP_eq_zero] at h
  have := h _ hmem
  simp only [Bool.not_eq_true] at this
  have hj : j = some newId := by simpa using this
  exact hne hj

/-! ## Coverage of `updateId`: with sufficient fuel the recoloring reaches
every orthogonally adjacent mine of every newly recolored cell -/

theorem updateIdAll_flood_of (fuel : Nat)
    (hU : ∀ pos newId fromDir s,
      countBad s newId ≤ fuel →
      s.grid.length = s.dimension * s.dimension →
      (isOutsideField s pos = true ∨ isMine s pos = true ∨
        getId s pos = some newId) →
      (isOutsideField s (pos.add fromDir) = false →
        isMine s (pos.add fromDir) = true →
        getId s (pos.add fromDir) = some newId) →
      ((isOutsideField s pos = false → isMine s pos = true →
        getId (updateId fuel pos newId fromDir s) pos = some newId) ∧
       (∀ u, isOutsideField s u = false →
        getId (updateId fuel pos newId fromDir s) u = some newId →
        getId s u ≠ some newId →
        ∀ dir ∈ ORTHO_DIRS, isOutsideField s (u.add dir) = false →
          isMine s (u.add dir) = true →
          getId (updateId fuel pos newId fromDir s) (u.add dir) = some newId))) :
    ∀ (ds : List Vec2) (pos : Vec2) (newId : Nat) (fromDir : Vec2)
      (s : GameState),
      countBad s newId ≤ fuel →
      s.grid.length = s.dimension * s.dimension →
      getId s pos = some newId →
      (∀ dir ∈ ds, isMine s (pos.add dir) = true) →
      ((∀ dir ∈ ds, dir ≠ fromDir → isOutsideField s (pos.add dir) = false →
        getId (updateIdAll fuel ds pos newId fromDir s) (pos.add dir) =
          some newId) ∧
       (∀ u, isOutsideField s u = false →
        getId (updateIdAll fuel ds pos newId fromDir s) u = some newId →
        getId s u ≠ some newId →
        ∀ dir ∈ ORTHO_DIRS, isOutsideField s (u.add dir) = false →
          isMine s (u.add dir) = true →
          getId (updateIdAll fuel ds pos newId fromDir s) (u.add dir) =
            some newId)) := by
  intro ds
  induction ds with
  | nil =>
    intro pos newId fromDir s hcb hlen hpos hds
    rw [updateIdAll_nil]
    constructor
    · intro dir hdir
      simp at hdir
    · intro u hu hcol hncol
      exact absurd hcol hncol
  | cons d rest ih =>
    intro pos newId fromDir s hcb hlen hpos hds
    rw [updateIdAll_cons]
    have rec1 : GridRecolor newId s
        (if d = fromDir then s else updateId fuel (pos.add d) newId d.negate s) := by
      split
      · exact gridRecolor_refl s
      · exact updateId_recolor fuel _ _ _ _
    have recAll : GridRecolor newId
        (if d = fromDir then s else updateId fuel (pos.add d) newId d.negate s)
        (updateIdAll fuel rest pos newId fromDir
          (if d = fromDir then s else updateId fuel (pos.add d) newId d.negate s)) :=
      updateIdAll_recolor fuel rest pos newId fromDir _
    have hcb1 : countBad
        (if d = fromDir then s else updateId fuel (pos.add d) newId d.negate s)
        newId ≤ fuel := le_trans rec1.countBad_le hcb
    have hlen1 := rec1.len_transfer hlen
    have hpos1 : getId
        (if d = fromDir then s else updateId fuel (pos.add d) newId d.negate s)
        pos = some newId := rec1.getId_mono hpos
    have hds1 : ∀ dir ∈ rest, isMine
        (if d = fromDir then s else updateId fuel (pos.add d) newId d.negate s)
        (pos.add dir) = true := by
      intro dir hdir
      rw [rec1.isMine_eq]
      exact hds dir (List.mem_cons_of_mem d hdir)
    obtain ⟨ihCov, ihClosure⟩ := ih pos newId fromDir _ hcb1 hlen1 hpos1 hds1
    constructor
    · -- coverage of each listed direction
      intro dir hdir hdirFrom hdirIn
      rcases List.mem_cons.mp hdir with rfl | hdirRest
      · -- the head direction: covered by its own `updateId` call, then kept
        have hU1 := hU (pos.add dir) newId dir.negate s hcb hlen
          (Or.inr (Or.inl (hds dir (List.mem_cons_self dir rest))))
          (by
            rw [Vec2.add_negate]
            intro _ _
            exact hpos)
        have hcov1 : getId (updateId fuel (pos.add dir) newId dir.negate s)
            (pos.add dir) = some newId :=
          hU1.1 hdirIn (hds dir (List.mem_cons_self dir rest))
        have : getId
            (if dir = fromDir then s
              else updateId fuel (pos.add dir) newId dir.negate s)
            (pos.add dir) = some newId := by
          rw [if_neg hdirFrom]
          exact hcov1
        exact recAll.getId_mono this
      · -- a later direction: covered by the tail run
        have hdirIn1 : isOutsideField
            (if d = fromDir then s
              else updateId fuel (pos.add d) newId d.negate s)
            (pos.add dir) = false := by
          rw [isOutsideField_congr rec1.1]
          exact hdirIn
        exact ihCov dir hdirRest hdirFrom hdirIn1
    · -- closure
      intro u hu hcolAll hncol dir hdir hdirIn hdirMine
      by_cases hcol1 : getId
          (if d = fromDir then s else updateId fuel (pos.add d) newId d.negate s)
          u = some newId
      · -- u recolored by the head call
        by_cases hdFrom : d = fromDir
        · rw [if_pos hdFrom] at hcol1
          exact absurd hcol1 hncol
        · rw [if_neg hdFrom] at hcol1
          have hU1 := hU (pos.add d) newId d.negate s hcb hlen
            (Or.inr (Or.inl (hds d (List.mem_cons_self d rest))))
            (by
              rw [Vec2.add_negate]
              intro _ _
              exact hpos)
          have hstep : getId (updateId fuel (pos.add d) newId d.negate s)
              (u.add dir) = some newId :=
            hU1.2 u hu hcol1 hncol dir hdir hdirIn hdirMine
          have : getId
              (if d = fromDir then s
                else updateId fuel (pos.add d) newId d.negate s)
              (u.add dir) = some newId := by
            rw [if_neg hdFrom]
            exact hstep
          exact recAll.getId_mono this
      · -- u recolored by the tail run
        have hu1 : isOutsideField
            (if d = fromDir then s
              else updateId fuel (pos.add d) newId d.negate s) u = false := by
          rw [isOutsideField_congr rec1.1]
          exact hu
        have hdirIn1 : isOutsideField
            (if d = fromDir then s
              else updateId fuel (pos.add d) newId d.negate s)
            (u.add dir) = false := by
          rw [isOutsideField_congr rec1.1]
          exact hdirIn
        have hdirMine1 : isMine
            (if d = fromDir then s
              else updateId fuel (pos.add d) newId d.negate s)
            (u.add dir) = true := by
          rw [rec1.isMine_eq]
          exact hdirMine
        exact ihClosure u hu1 hcolAll hcol1 dir hdir hdirIn1 hdirMine1

theorem updateId_flood :
    ∀ (fuel : Nat) (pos : Vec2) (newId : Nat) (fromDir : Vec2) (s : GameState),
      countBad s newId ≤ fuel →
      s.grid.length = s.dimension * s.dimension →
      (isOutsideField s pos = true ∨ isMine s pos = true ∨
        getId s pos = some newId) →
      (isOutsideField s (pos.add fromDir) = false →
        isMine s (pos.add fromDir) = true →
        getId s (pos.add fromDir) = some newId) →
      ((isOutsideField s pos = false → isMine s pos = true →
        getId (updateId fuel pos newId fromDir s) pos = some newId) ∧
       (∀ u, isOutsideField s u = false →
        getId (updateId fuel pos newId fromDir s) u = some newId →
        getId s u ≠ some newId →
        ∀ dir ∈ ORTHO_DIRS, isOutsideField s (u.add dir) = false →
          isMine s (u.add dir) = true →
          getId (updateId fuel pos newId fromDir s) (u.add dir) = some newId)) := by
  intro fuel
  induction fuel with
  | zero =>
    intro pos newId fromDir s hcb hlen hq hfrom
    rw [updateId]
    constructor
    · intro hin hm
      exact countBad_zero_colored (Nat.le_zero.mp hcb) hlen hin hm
    · intro u hu hcol hncol
      exact absurd hcol hncol
  | succ fuel ih =>
    intro pos newId fromDir s hcb hlen hq hfrom
    rw [updateId_succ_eq]
    by_cases hguard : (!isOutsideField s pos && getId s pos != some newId) = true
    · rw [if_pos hguard]
      have hguard2 := hguard
      simp only [Bool.and_eq_true, Bool.not_eq_true', bne_iff_ne, ne_eq] at hguard2
      have hin : isOutsideField s pos = false := hguard2.1
      have hnid : getId s pos ≠ some newId := hguard2.2
      have hm : isMine s pos = true := by
        rcases hq with h | h | h
        · rw [hin] at h; exact absurd h (by simp)
        · exact h
        · exact absurd h hnid
      obtain ⟨j, f, hg⟩ := isMine_iff.mp hm
      have hjne : j ≠ some newId := by
        intro hj
        exact hnid (by rw [getId_of_inField_mine hin hg, hj])
      have hcbSet : countBad (setId s pos newId) newId ≤ fuel := by
        have := countBad_setId_lt (v := newId) hin hlen hg hjne
        omega
      have hlenSet := (setId_recolor s pos newId).len_transfer hlen
      have hposSet : getId (setId s pos newId) pos = some newId :=
        getId_setId_self hin hlen hg
      have hdsSet : ∀ dir ∈ ORTHO_DIRS.filter
          (fun dir => isMine (setId s pos newId) (pos.add dir)),
          isMine (setId s pos newId) (pos.add dir) = true := by
        intro dir hdir
        exact (List.mem_filter.mp hdir).2
      obtain ⟨allCov, allClosure⟩ := updateIdAll_flood_of fuel ih
        (ORTHO_DIRS.filter (fun dir => isMine (setId s pos newId) (pos.add dir)))
        pos newId fromDir (setId s pos newId) hcbSet hlenSet hposSet hdsSet
      have recSet := setId_recolor s pos newId
      have recAll : GridRecolor newId (setId s pos newId)
          (updateIdAll fuel
            (ORTHO_DIRS.filter
              (fun dir => isMine (setId s pos newId) (pos.add dir)))
            pos newId fromDir (setId s pos newId)) :=
        updateIdAll_recolor fuel _ pos newId fromDir _
      constructor
      · intro _ _
        exact recAll.getId_mono hposSet
      · intro u hu hcol hncol dir hdir hdirIn hdirMine
        have hdirMineSet : isMine (setId s pos newId) (u.add dir) = true := by
          rw [recSet.isMine_eq]
          exact hdirMine
        by_cases hupos : u = pos
        · subst hupos
          have hdirInFilter : dir ∈ ORTHO_DIRS.filter
              (fun dir => isMine (setId s u newId) (u.add dir)) :=
            List.mem_filter.mpr ⟨hdir, hdirMineSet⟩
          by_cases hdFrom : dir = fromDir
          · subst hdFrom
            have hcolFrom : getId s (u.add dir) = some newId :=
              hfrom hdirIn hdirMine
            exact recAll.getId_mono (recSet.getId_mono hcolFrom)
          · have hdirInSet : isOutsideField (setId s u newId) (u.add dir) = false := by
              rw [isOutsideField_congr recSet.1]
              exact hdirIn
            exact allCov dir hdirInFilter hdFrom hdirInSet
        · have hncolSet : getId (setId s pos newId) u ≠ some newId := by
            rw [getId_setId_ne hin hu hupos]
            exact hncol
          have huSet : isOutsideField (setId s pos newId) u = false := by
            rw [isOutsideField_congr recSet.1]
            exact hu
          have hdirInSet : isOutsideField (setId s pos newId) (u.add dir) = false := by
            rw [isOutsideField_congr recSet.1]
            exact hdirIn
          exact allClosure u huSet hcol hncolSet dir hdir hdirInSet hdirMineSet
    · rw [if_neg hguard]
      have hfalse : isOutsideField s pos = true ∨ getId s pos = some newId := by
        by_cases hout : isOutsideField s pos = true
        · exact Or.inl hout
        · right
          by_contra hne
          apply hguard
          rw [Bool.not_eq_true] at hout
          simp [hout, bne_iff_ne, hne]
      constructor
      · intro hin hm
        rcases hfalse with h | h
        · rw [hin] at h; exact absurd h (by simp)
        · exact h
      · intro u hu hcol hncol
        exact absurd hcol hncol

/-! ## The propagation fold of `assignId` -/

theorem countBad_le_length (s : GameState) (v : Nat) :
    countBad s v ≤ s.grid.length :=
  List.countP_le_length _

theorem getState_mem {s : GameState} {p : Vec2} {c : Cell}
    (h : getState s p = some c) : c ∈ s.grid := by
  have h' : (if 0 ≤ cellIndex s p then s.grid.get? (cellIndex s p).toNat
      else none) = some c := h
  by_cases hi : 0 ≤ cellIndex s p
  · rw [if_pos hi, List.get?_eq_getElem?] at h'
    exact List.getElem?_mem h'
  · rw [if_neg hi] at h'
    exact absurd h' (by simp)

theorem isMine_of_notEmpty {s : GameState} {x : Vec2}
    (hno : ∀ c ∈ s.grid, c ≠ Cell.Open)
    (hin : isOutsideField s x = false)
    (hlen : s.grid.length = s.dimension * s.dimension)
    (hne : isEmpty s x = false) : isMine s x = true := by
  obtain ⟨c, hc⟩ := getState_isSome hin hlen
  cases c with
  | Open => exact absurd rfl (hno _ (getState_mem hc))
  | Close f =>
    exfalso
    rw [isEmpty, hin, hc] at hne
    simp at hne
  | Mine j f => rw [isMine, hc]

theorem assignFold_recolor :
    ∀ (ds : List Vec2) (pos : Vec2) (newId : Nat) (s : GameState),
      GridRecolor newId s
        (ds.foldl (fun acc dir =>
          updateId acc.grid.length (pos.add dir) newId dir.negate acc) s) := by
  intro ds
  induction ds with
  | nil => intro pos newId s; exact gridRecolor_refl s
  | cons d rest ih =>
    intro pos newId s
    rw [List.foldl_cons]
    exact (updateId_recolor s.grid.length (pos.add d) newId d.negate s).trans
      (ih pos newId _)

theorem assignFold_flood :
    ∀ (ds : List Vec2) (pos : Vec2) (newId : Nat) (s : GameState),
      s.grid.length = s.dimension * s.dimension →
      getId s pos = some newId →
      (∀ dir ∈ ds, isOutsideField s (pos.add dir) = true ∨
        isMine s (pos.add dir) = true) →
      ((∀ dir ∈ ds, isOutsideField s (pos.add dir) = false →
        isMine s (pos.add dir) = true →
        getId (ds.foldl (fun acc dir =>
          updateId acc.grid.length (pos.add dir) newId dir.negate acc) s)
          (pos.add dir) = some newId) ∧
       (∀ u, isOutsideField s u = false →
        getId (ds.foldl (fun acc dir =>
          updateId acc.grid.length (pos.add dir) newId dir.negate acc) s) u =
          some newId →
        getId s u ≠ some newId →
        ∀ dir ∈ ORTHO_DIRS, isOutsideField s (u.add dir) = false →
          isMine s (u.add dir) = true →
          getId (ds.foldl (fun acc dir =>
            updateId acc.grid.length (pos.add dir) newId dir.negate acc) s)
            (u.add dir) = some newId)) := by
  intro ds
  induction ds with
  | nil =>
    intro pos newId s hlen hpos hds
    constructor
    · intro dir hdir
      simp at hdir
    · intro u hu hcol hncol
      exact absurd hcol hncol
  | cons d rest ih =>
    intro pos newId s hlen hpos hds
    rw [List.foldl_cons]
    have hU := updateId_flood s.grid.length (pos.add d) newId d.negate s
      (countBad_le_length s newId) hlen
      (by
        rcases hds d (List.mem_cons_self d rest) with h | h
        · exact Or.inl h
        · exact Or.inr (Or.inl h))
      (by
        rw [Vec2.add_negate]
        intro _ _
        exact hpos)
    have rec1 : GridRecolor newId s
        (updateId s.grid.length (pos.add d) newId d.negate s) :=
      updateId_recolor _ _ _ _ _
    have recRest : GridRecolor newId
        (updateId s.grid.length (pos.add d) newId d.negate s)
        (rest.foldl (fun acc dir =>
          updateId acc.grid.length (pos.add dir) newId dir.negate acc)
          (updateId s.grid.length (pos.add d) newId d.negate s)) :=
      assignFold_recolor rest pos newId _
    have hlen1 := rec1.len_transfer hlen
    have hpos1 := rec1.getId_mono hpos
    have hds1 : ∀ dir ∈ rest, isOutsideField
        (updateId s.grid.length (pos.add d) newId d.negate s) (pos.add dir) =
          true ∨
        isMine (updateId s.grid.length (pos.add d) newId d.negate s)
          (pos.add dir) = true := by
      intro dir hdir
      rw [isOutsideField_congr rec1.1, rec1.isMine_eq]
      exact hds dir (List.mem_cons_of_mem d hdir)
    obtain ⟨ihCov, ihClosure⟩ := ih pos newId _ hlen1 hpos1 hds1
    constructor
    · intro dir hdir hdirIn hdirMine
      rcases List.mem_cons.mp hdir with rfl | hdirRest
      · have hcov1 : getId (updateId s.grid.length (pos.add dir) newId
            dir.negate s) (pos.add dir) = some newId :=
          hU.1 hdirIn hdirMine
        exact recRest.getId_mono hcov1
      · refine ihCov dir hdirRest ?_ ?_
        · rw [isOutsideField_congr rec1.1]; exact hdirIn
        · rw [rec1.isMine_eq]; exact hdirMine
    · intro u hu hcolAll hncol dir hdir hdirIn hdirMine
      by_cases hcol1 : getId
          (updateId s.grid.length (pos.add d) newId d.negate s) u = some newId
      · have hstep := hU.2 u hu hcol1 hncol dir hdir hdirIn hdirMine
        exact recRest.getId_mono hstep
      · refine ihClosure u ?_ hcolAll hcol1 dir hdir ?_ ?_
        · rw [isOutsideField_congr rec1.1]; exact hu
        · rw [isOutsideField_congr rec1.1]; exact hdirIn
        · rw [rec1.isMine_eq]; exact hdirMine

/-! ## Preservation of the cluster invariant by `assignId` -/

theorem ortho_negate_mem : ∀ dir ∈ ORTHO_DIRS, dir.negate ∈ ORTHO_DIRS := by
  decide

theorem isEmpty_eq_false_of_mine {s : GameState} {x : Vec2}
    (h : isMine s x = true) : isEmpty s x = false := by
  obtain ⟨j, f, hg⟩ := isMine_iff.mp h
  rw [isEmpty, hg]
  simp

theorem cluster_preserved_core {s1 s2 s3 : GameState} {pos : Vec2} {newId : Nat}
    (rec2 : GridRecolor newId s1 s2)
    (rec3 : GridRecolor newId s2 s3)
    (hs2ne : ∀ a, a ≠ pos → isOutsideField s1 a = false →
      getId s2 a = getId s1 a)
    (hpos2 : getId s2 pos = some newId)
    (fCov : ∀ dir ∈ ORTHO_DIRS, isMine s1 (pos.add dir) = true →
      isOutsideField s1 (pos.add dir) = false →
      getId s3 (pos.add dir) = some newId)
    (fClosure : ∀ u, isOutsideField s2 u = false → getId s3 u = some newId →
      getId s2 u ≠ some newId → ∀ dir ∈ ORTHO_DIRS,
      isOutsideField s2 (u.add dir) = false → isMine s2 (u.add dir) = true →
      getId s3 (u.add dir) = some newId)
    (hclusterOld : ∀ p dir, dir ∈ ORTHO_DIRS → isOutsideField s1 p = false →
      isOutsideField s1 (p.add dir) = false → isMine s1 p = true →
      isMine s1 (p.add dir) = true → p ≠ pos → p.add dir ≠ pos →
      getId s1 p = getId s1 (p.add dir)) :
    ClusterInv s3 := by
  have hdim21 : s2.dimension = s1.dimension := rec2.1
  have hdim32 : s3.dimension = s2.dimension := rec3.1
  have hdim31 : s3.dimension = s1.dimension := hdim32.trans hdim21
  have hmine31 : ∀ x, isMine s3 x = isMine s1 x := fun x => by
    rw [rec3.isMine_eq, rec2.isMine_eq]
  intro p dir hdir hpin3 hqin3 hpm3 hqm3
  rw [isOutsideField_congr hdim31] at hpin3 hqin3
  rw [hmine31] at hpm3 hqm3
  have key : ∀ a dirA, dirA ∈ ORTHO_DIRS → isOutsideField s1 a = false →
      isOutsideField s1 (a.add dirA) = false → isMine s1 a = true →
      isMine s1 (a.add dirA) = true → getId s3 a = some newId →
      getId s3 (a.add dirA) = some newId := by
    intro a dirA hdirA hain hbin ham hbm hcola
    by_cases hapos : a = pos
    · subst hapos
      exact fCov dirA hdirA hbm hbin
    · by_cases hcol2 : getId s2 a = some newId
      · have hcol1 : getId s1 a = some newId := by
          rw [← hs2ne a hapos hain]
          exact hcol2
        by_cases hbpos : a.add dirA = pos
        · rw [hbpos]
          exact rec3.getId_mono hpos2
        · have hcolb1 : getId s1 (a.add dirA) = some newId := by
            rw [← hclusterOld a dirA hdirA hain hbin ham hbm hapos hbpos]
            exact hcol1
          have hcolb2 : getId s2 (a.add dirA) = some newId := by
            rw [hs2ne _ hbpos hbin]
            exact hcolb1
          exact rec3.getId_mono hcolb2
      · refine fClosure a ?_ hcola hcol2 dirA hdirA ?_ ?_
        · rw [isOutsideField_congr hdim21]; exact hain
        · rw [isOutsideField_congr hdim21]; exact hbin
        · rw [rec2.isMine_eq]; exact hbm
  by_cases hcp : getId s3 p = some newId
  · rw [hcp, key p dir hdir hpin3 hqin3 hpm3 hqm3 hcp]
  · by_cases hcq : getId s3 (p.add dir) = some newId
    · exfalso
      have hdirneg : dir.negate ∈ ORTHO_DIRS := ortho_negate_mem dir hdir
      have hback := key (p.add dir) dir.negate hdirneg hqin3
        (by rw [Vec2.add_negate]; exact hpin3) hqm3
        (by rw [Vec2.add_negate]; exact hpm3) hcq
      rw [Vec2.add_negate] at hback
      exact hcp hback
    · have rec13 : GridRecolor newId s1 s3 := rec2.trans rec3
      have hstp : getId s3 p = getId s1 p := rec13.getId_stable hcp
      have hstq : getId s3 (p.add dir) = getId s1 (p.add dir) :=
        rec13.getId_stable hcq
      have hppos : p ≠ pos := by
        intro h
        subst h
        exact hcp (rec3.getId_mono hpos2)
      have hqpos : p.add dir ≠ pos := by
        intro h
        rw [h] at hcq
        exact hcq (rec3.getId_mono hpos2)
      rw [hstp, hstq]
      exact hclusterOld p dir hdir hpin3 hqin3 hpm3 hqm3 hppos hqpos

theorem assignId_cluster {s1 : GameState} {pos : Vec2}
    (hlen : s1.grid.length = s1.dimension * s1.dimension)
    (hin : isOutsideField s1 pos = false)
    (hmine : getState s1 pos = some (Cell.Mine none false))
    (hno : ∀ c ∈ s1.grid, c ≠ Cell.Open)
    (hclusterOld : ∀ p dir, dir ∈ ORTHO_DIRS → isOutsideField s1 p = false →
      isOutsideField s1 (p.add dir) = false → isMine s1 p = true →
      isMine s1 (p.add dir) = true → p ≠ pos → p.add dir ≠ pos →
      getId s1 p = getId s1 (p.add dir)) :
    ClusterInv (assignId s1 pos) := by
  simp only [assignId]
  set D := ORTHO_DIRS.filter (fun dir => !isEmpty s1 (pos.add dir)) with hD
  have hmemMine : ∀ dir ∈ ORTHO_DIRS, isMine s1 (pos.add dir) = true → dir ∈ D := by
    intro dir hdir hm
    rw [hD]
    exact List.mem_filter.mpr ⟨hdir, by
      rw [Bool.not_eq_true', isEmpty_eq_false_of_mine hm]⟩
  have hmemOr : ∀ dir ∈ D, isOutsideField s1 (pos.add dir) = true ∨
      isMine s1 (pos.add dir) = true := by
    intro dir hdir
    rw [hD] at hdir
    have hpred := (List.mem_filter.mp hdir).2
    by_cases hout : isOutsideField s1 (pos.add dir) = true
    · exact Or.inl hout
    · rw [Bool.not_eq_true] at hout
      refine Or.inr (isMine_of_notEmpty hno hout hlen ?_)
      rw [Bool.not_eq_true'] at hpred
      exact hpred
  by_cases hlen0 : D.length > 0
  · rw [if_pos hlen0]
    set V := D.foldl (fun a dir =>
      match getId s1 (pos.add dir) with
      | some k => Nat.min a k
      | none => a) s1.currentId with hV
    have hpos2 : getId (setId s1 pos V) pos = some V :=
      getId_setId_self hin hlen hmine
    have rec2 : GridRecolor V s1 (setId s1 pos V) := setId_recolor s1 pos V
    have hlen2 := rec2.len_transfer hlen
    have hds2 : ∀ dir ∈ D,
        isOutsideField (setId s1 pos V) (pos.add dir) = true ∨
        isMine (setId s1 pos V) (pos.add dir) = true := by
      intro dir hdir
      rw [isOutsideField_congr rec2.1, rec2.isMine_eq]
      exact hmemOr dir hdir
    obtain ⟨fCov, fClosure⟩ := assignFold_flood D pos V (setId s1 pos V)
      hlen2 hpos2 hds2
    have rec3 : GridRecolor V (setId s1 pos V)
        (D.foldl (fun acc dir =>
          updateId acc.grid.length (pos.add dir) V dir.negate acc)
          (setId s1 pos V)) :=
      assignFold_recolor D pos V (setId s1 pos V)
    have hcore : ClusterInv (D.foldl (fun acc dir =>
        updateId acc.grid.length (pos.add dir) V dir.negate acc)
        (setId s1 pos V)) :=
      cluster_preserved_core rec2 rec3
        (fun a ha hain => getId_setId_ne hin hain ha) hpos2
        (fun dir hdir hm hinb => fCov dir (hmemMine dir hdir hm)
          (by rw [isOutsideField_congr rec2.1]; exact hinb)
          (by rw [rec2.isMine_eq]; exact hm))
        fClosure hclusterOld
    intro p dir hdir hpin hqin hpm hqm
    exact hcore p dir hdir hpin hqin hpm hqm
  · rw [if_neg hlen0]
    have hmdNil : D = [] := by
      rcases hfe : D with - | ⟨d, rest⟩
      · rfl
      · exfalso
        apply hlen0
        rw [hfe]
        simp
    have hEmptyAll : ∀ dir ∈ ORTHO_DIRS, isMine s1 (pos.add dir) = false := by
      intro dir hdir
      by_contra hm
      rw [Bool.not_eq_false] at hm
      have := hmemMine dir hdir hm
      rw [hmdNil] at this
      simp at this
    intro p dir hdir hpin hqin hpm hqm
    by_cases hp : p = pos
    · subst hp
      rw [hEmptyAll dir hdir] at hqm
      simp at hqm
    · by_cases hq : p.add dir = pos
      · exfalso
        have hpneg : pos.add dir.negate = p := by
          rw [← hq, Vec2.add_negate]
        have := hEmptyAll dir.negate (ortho_negate_mem dir hdir)
        rw [hpneg, hpm] at this
        simp at this
      · exact hclusterOld p dir hdir hpin hqin hpm hqm hp hq

/-! ## The rejection-sampling loop -/

theorem set_of_get_eq {α : Type} :
    ∀ (l : List α) (i : Nat) (a : α), l.get? i = some a → l.set i a = l
  | [], i, a, h => by simp at h
  | c :: t, 0, a, h => by
    simp only [List.get?_cons_zero, Option.some.injEq] at h
    rw [← h]
    rfl
  | c :: t, i+1, a, h => by
    simp only [List.get?_cons_succ] at h
    simp only [List.set_cons_succ]
    rw [set_of_get_eq t i a h]

theorem getState_mk_minables (s : GameState) (M : List Vec2) (p : Vec2) :
    getState { s with minables := M } p = getState s p := rfl

theorem setState_restore {s : GameState} {p : Vec2} {c0 : Cell}
    (hget : getState s p = some c0) (c : Cell) :
    setState (setState s p c) p c0 = s := by
  by_cases hi : 0 ≤ cellIndex s p
  · have hget' : s.grid.get? (cellIndex s p).toNat = some c0 := by
      have h : (if 0 ≤ cellIndex s p then s.grid.get? (cellIndex s p).toNat
          else none) = some c0 := hget
      rwa [if_pos hi] at h
    have e1 : setState s p c =
        { s with grid := s.grid.set (cellIndex s p).toNat c } := by
      simp [setState, hi]
    rw [e1]
    have e2 : setState { s with grid := s.grid.set (cellIndex s p).toNat c } p c0 =
        { s with grid :=
            (s.grid.set (cellIndex s p).toNat c).set (cellIndex s p).toNat c0 } := by
      simp [setState, cellIndex_mk_grid, hi]
    rw [e2, List.set_set, set_of_get_eq s.grid _ _ hget']
  · exfalso
    have h : (if 0 ≤ cellIndex s p then s.grid.get? (cellIndex s p).toNat
        else none) = some c0 := hget
    rw [if_neg hi] at h
    exact absurd h (by simp)

theorem randomMinablePos_ok {s : GameState} {tape : List Nat} {pos : Vec2}
    {s' : GameState} {t' : List Nat}
    (h : randomMinablePos s tape = .ok (pos, s', t')) :
    ∃ k, k < s.minables.length ∧ pos = s.minables.getD k ⟨0, 0⟩ ∧
      s' = { s with minables := s.minables.eraseIdx k } ∧ t' = tape.tail := by
  rw [randomMinablePos] at h
  by_cases hlen : s.minables.length = 0
  · rw [if_pos hlen] at h
    exact absurd h (by simp)
  · rw [if_neg hlen] at h
    simp only [Except.ok.injEq, Prod.mk.injEq] at h
    obtain ⟨h1, h2, h3⟩ := h
    exact ⟨tape.headD 0 % s.minables.length,
      Nat.mod_lt _ (Nat.pos_of_ne_zero hlen), h1.symm, h2.symm, h3.symm⟩

theorem pos_not_mem_eraseIdx {l : List Vec2} (hnodup : l.Nodup) {k : Nat}
    (hk : k < l.length) : l.getD k ⟨0, 0⟩ ∉ l.eraseIdx k := by
  intro hmem
  rw [List.mem_eraseIdx_iff_getElem?] at hmem
  obtain ⟨i, hik, hi⟩ := hmem
  have hil : i < l.length := by
    by_contra hge
    rw [List.getElem?_eq_none (by omega)] at hi
    simp at hi
  rw [List.getElem?_eq_getElem hil] at hi
  have hgd : l.getD k ⟨0, 0⟩ = l[k] := List.getD_eq_getElem l _ hk
  rw [hgd] at hi
  have := (List.Nodup.getElem_inj_iff hnodup).mp (Option.some.inj hi)
  exact hik this

theorem placeLoop_ok :
    ∀ (fuel : Nat) (s : GameState) (tape : List Nat) (pos : Vec2)
      (s1 : GameState) (t1 : List Nat),
      (∀ p ∈ s.minables, isOutsideField s p = false ∧
        getState s p = some (Cell.Close false)) →
      s.minables.Nodup →
      placeLoop fuel s tape = .ok (pos, s1, t1) →
      ∃ M, pos ∈ s.minables ∧ M.Sublist s.minables ∧ pos ∉ M ∧ M.Nodup ∧
        s1 = setState { s with minables := M } pos (Cell.Mine none false) ∧
        violates s1 pos = false := by
  intro fuel
  induction fuel with
  | zero =>
    intro s tape pos s1 t1 hpool hnodup hrun
    rw [placeLoop] at hrun
    split at hrun
    · exact absurd hrun (by simp)
    · rename_i pos0 s0 t0 heq
      obtain ⟨k, hk, hpos0, hs0, ht0⟩ := randomMinablePos_ok heq
      split at hrun
      · exact absurd hrun (by simp)
      · rename_i hviol
        simp only [Except.ok.injEq, Prod.mk.injEq] at hrun
        obtain ⟨hp, hs, ht⟩ := hrun
        subst hs0
        rw [Bool.not_eq_true] at hviol
        refine ⟨s.minables.eraseIdx k, ?_, List.eraseIdx_sublist _ k, ?_,
          hnodup.eraseIdx k, ?_, ?_⟩
        · rw [← hp, hpos0, List.getD_eq_getElem _ _ hk]
          exact List.getElem_mem hk
        · rw [← hp, hpos0]
          exact pos_not_mem_eraseIdx hnodup hk
        · rw [← hs, ← hp]
        · rw [← hs, ← hp]
          exact hviol
  | succ f ih =>
    intro s tape pos s1 t1 hpool hnodup hrun
    rw [placeLoop] at hrun
    split at hrun
    · exact absurd hrun (by simp)
    · rename_i pos0 s0 t0 heq
      obtain ⟨k, hk, hpos0, hs0, ht0⟩ := randomMinablePos_ok heq
      have hpos0mem : pos0 ∈ s.minables := by
        rw [hpos0, List.getD_eq_getElem _ _ hk]
        exact List.getElem_mem hk
      have hpos0close : getState s pos0 = some (Cell.Close false) :=
        (hpool pos0 hpos0mem).2
      split at hrun
      · -- rejected draw: the board is restored and the loop goes on
        rename_i hviol
        have hrestore : setState (setState s0 pos0 (Cell.Mine none false)) pos0
            (Cell.Close false) = s0 := by
          refine setState_restore ?_ _
          rw [hs0, getState_mk_minables]
          exact hpos0close
        rw [hrestore] at hrun
        have hpool0 : ∀ p ∈ s0.minables, isOutsideField s0 p = false ∧
            getState s0 p = some (Cell.Close false) := by
          intro p hp
          rw [hs0] at hp ⊢
          have hp' : p ∈ s.minables :=
            (List.eraseIdx_sublist s.minables k).subset hp
          exact ⟨(hpool p hp').1, (hpool p hp').2⟩
        have hnodup0 : s0.minables.Nodup := by
          rw [hs0]
          exact hnodup.eraseIdx k
        obtain ⟨M, hmem, hsub, hnotin, hMnodup, hs1, hviol1⟩ :=
          ih s0 t0 pos s1 t1 hpool0 hnodup0 hrun
        rw [hs0] at hmem hsub hs1
        exact ⟨M, (List.eraseIdx_sublist s.minables k).subset hmem,
          hsub.trans (List.eraseIdx_sublist s.minables k), hnotin, hMnodup,
          hs1, hviol1⟩
      · rename_i hviol
        simp only [Except.ok.injEq, Prod.mk.injEq] at hrun
        obtain ⟨hp, hs, ht⟩ := hrun
        subst hs0
        rw [Bool.not_eq_true] at hviol
        refine ⟨s.minables.eraseIdx k, ?_, List.eraseIdx_sublist _ k, ?_,
          hnodup.eraseIdx k, ?_, ?_⟩
        · rw [← hp, hpos0, List.getD_eq_getElem _ _ hk]
          exact List.getElem_mem hk
        · rw [← hp, hpos0]
          exact pos_not_mem_eraseIdx hnodup hk
        · rw [← hs, ← hp]
        · rw [← hs, ← hp]
          exact hviol

/-! ## Shape of `assignId` -/

theorem assignId_spec (s : GameState) (pos : Vec2) :
    ∃ v s3, GridRecolor v s s3 ∧
      (assignId s pos = s3 ∨
        assignId s pos = { s3 with currentId := s3.currentId + 1 }) := by
  simp only [assignId]
  set D := ORTHO_DIRS.filter (fun dir => !isEmpty s (pos.add dir)) with hD
  by_cases hlen0 : D.length > 0
  · rw [if_pos hlen0]
    set V := D.foldl (fun a dir =>
      match getId s (pos.add dir) with
      | some k => Nat.min a k
      | none => a) s.currentId with hV
    refine ⟨V, D.foldl (fun acc dir =>
      updateId acc.grid.length (pos.add dir) V dir.negate acc) (setId s pos V),
      ?_, Or.inr rfl⟩
    exact (setId_recolor s pos V).trans (assignFold_recolor D pos V _)
  · rw [if_neg hlen0]
    exact ⟨0, s, gridRecolor_refl s, Or.inl rfl⟩

theorem getState_mk_currentId (s : GameState) (c : Nat) (p : Vec2) :
    getState { s with currentId := c } p = getState s p := rfl

theorem isMine_mk_currentId (s : GameState) (c : Nat) (p : Vec2) :
    isMine { s with currentId := c } p = isMine s p := rfl

theorem isOutsideField_mk_currentId (s : GameState) (c : Nat) (p : Vec2) :
    isOutsideField { s with currentId := c } p = isOutsideField s p := rfl

theorem assignId_dimension (s : GameState) (pos : Vec2) :
    (assignId s pos).dimension = s.dimension := by
  obtain ⟨v, s3, hrec, hcase⟩ := assignId_spec s pos
  rcases hcase with h | h <;> rw [h] <;> exact hrec.1

theorem assignId_totalMines (s : GameState) (pos : Vec2) :
    (assignId s pos).totalMines = s.totalMines := by
  obtain ⟨v, s3, hrec, hcase⟩ := assignId_spec s pos
  rcases hcase with h | h <;> rw [h] <;> exact hrec.2.1

theorem assignId_minables (s : GameState) (pos : Vec2) :
    (assignId s pos).minables = s.minables := by
  obtain ⟨v, s3, hrec, hcase⟩ := assignId_spec s pos
  rcases hcase with h | h <;> rw [h] <;> exact hrec.2.2.1

theorem assignId_remainingClearCells (s : GameState) (pos : Vec2) :
    (assignId s pos).remainingClearCells = s.remainingClearCells := by
  obtain ⟨v, s3, hrec, hcase⟩ := assignId_spec s pos
  rcases hcase with h | h <;> rw [h] <;> exact hrec.2.2.2.2.1

theorem assignId_numRemainingFlags (s : GameState) (pos : Vec2) :
    (assignId s pos).numRemainingFlags = s.numRemainingFlags := by
  obtain ⟨v, s3, hrec, hcase⟩ := assignId_spec s pos
  rcases hcase with h | h <;> rw [h] <;> exact hrec.2.2.2.2.2.1

theorem assignId_wins (s : GameState) (pos : Vec2) :
    (assignId s pos).wins = s.wins := by
  obtain ⟨v, s3, hrec, hcase⟩ := assignId_spec s pos
  rcases hcase with h | h <;> rw [h] <;> exact hrec.2.2.2.2.2.2.1

theorem assignId_grid_length (s : GameState) (pos : Vec2) :
    (assignId s pos).grid.length = s.grid.length := by
  obtain ⟨v, s3, hrec, hcase⟩ := assignId_spec s pos
  rcases hcase with h | h <;> rw [h] <;> exact hrec.grid_length

theorem assignId_isMine (s : GameState) (pos p : Vec2) :
    isMine (assignId s pos) p = isMine s p := by
  obtain ⟨v, s3, hrec, hcase⟩ := assignId_spec s pos
  rcases hcase with h | h <;> rw [h]
  · exact hrec.isMine_eq p
  · rw [isMine_mk_currentId]
    exact hrec.isMine_eq p

theorem assignId_noOpen (s : GameState) (pos : Vec2)
    (hno : ∀ c ∈ s.grid, c ≠ Cell.Open) :
    ∀ c ∈ (assignId s pos).grid, c ≠ Cell.Open := by
  obtain ⟨v, s3, hrec, hcase⟩ := assignId_spec s pos
  rcases hcase with h | h <;> rw [h]
  · exact hrec.noOpen hno
  · exact hrec.noOpen hno

theorem assignId_getState_close (s : GameState) (pos p : Vec2) {f : Bool}
    (h : getState s p = some (Cell.Close f)) :
    getState (assignId s pos) p = some (Cell.Close f) := by
  obtain ⟨v, s3, hrec, hcase⟩ := assignId_spec s pos
  have hres : getState s3 p = some (Cell.Close f) := by
    rcases hrec.getState_rel p with heq | ⟨j, fl, h1, h2⟩
    · rw [heq, h]
    · rw [h] at h1
      exact absurd h1 (by simp)
  rcases hcase with hc | hc <;> rw [hc]
  · exact hres
  · rw [getState_mk_currentId]
    exact hres

/-! ## Cell counting under `setState` and recoloring -/

theorem countP_eq_of_forall2 {α : Type} {R : α → α → Prop} {p : α → Bool}
    (hIff : ∀ a b, R a b → p a = p b) {l l' : List α}
    (h : List.Forall₂ R l l') : l.countP p = l'.countP p := by
  induction h with
  | nil => rfl
  | cons hab htail ih =>
    simp only [List.countP_cons, ih, hIff _ _ hab]

theorem assignId_countMine (s : GameState) (pos : Vec2) :
    countMine (assignId s pos) = countMine s := by
  obtain ⟨v, s3, hrec, hcase⟩ := assignId_spec s pos
  have h3 : countMine s3 = countMine s := by
    refine (countP_eq_of_forall2 ?_ hrec.2.2.2.2.2.2.2).symm
    intro a b hab
    rcases hab with rfl | ⟨j, f, rfl, rfl⟩ <;> rfl
  rcases hcase with h | h <;> rw [h]
  · exact h3
  · exact h3

theorem assignId_countClose (s : GameState) (pos : Vec2) :
    countClose (assignId s pos) = countClose s := by
  obtain ⟨v, s3, hrec, hcase⟩ := assignId_spec s pos
  have h3 : countClose s3 = countClose s := by
    refine (countP_eq_of_forall2 ?_ hrec.2.2.2.2.2.2.2).symm
    intro a b hab
    rcases hab with rfl | ⟨j, f, rfl, rfl⟩ <;> rfl
  rcases hcase with h | h <;> rw [h]
  · exact h3
  · exact h3

theorem assignId_countOpen (s : GameState) (pos : Vec2) :
    countOpen (assignId s pos) = countOpen s := by
  obtain ⟨v, s3, hrec, hcase⟩ := assignId_spec s pos
  have h3 : countOpen s3 = countOpen s := by
    refine (countP_eq_of_forall2 ?_ hrec.2.2.2.2.2.2.2).symm
    intro a b hab
    rcases hab with rfl | ⟨j, f, rfl, rfl⟩ <;> rfl
  rcases hcase with h | h <;> rw [h]
  · exact h3
  · exact h3

theorem counts_setState_mine {s : GameState} {p : Vec2}
    (hin : isOutsideField s p = false)
    (hlen : s.grid.length = s.dimension * s.dimension)
    (hget : getState s p = some (Cell.Close false)) :
    countMine (setState s p (Cell.Mine none false)) = countMine s + 1 ∧
    countClose (setState s p (Cell.Mine none false)) + 1 = countClose s ∧
    countOpen (setState s p (Cell.Mine none false)) = countOpen s := by
  have hidx : (cellIndex s p).toNat < s.grid.length := by
    rw [hlen]; exact cellIndex_toNat_lt hin
  have hcell : s.grid[(cellIndex s p).toNat] = Cell.Close false := by
    rw [getState_of_inField hin, List.get?_eq_getElem?,
      List.getElem?_eq_getElem hidx] at hget
    exact Option.some.inj hget
  have hgrid : (setState s p (Cell.Mine none false)).grid =
      s.grid.set (cellIndex s p).toNat (Cell.Mine none false) :=
    setState_grid _ hin
  have hclosePos : 0 < countClose s := by
    rw [countClose, List.countP_pos_iff]
    refine ⟨_, List.getElem_mem hidx, ?_⟩
    rw [hcell]
  refine ⟨?_, ?_, ?_⟩
  · show List.countP _ (setState s p (Cell.Mine none false)).grid = _
    rw [hgrid, List.countP_set _ _ _ _ hidx, hcell]
    simp [countMine]
  · show List.countP _ (setState s p (Cell.Mine none false)).grid + 1 = _
    rw [hgrid, List.countP_set _ _ _ _ hidx, hcell]
    rw [countClose] at hclosePos ⊢
    simp only [if_true, if_false]
    simp
    omega
  · show List.countP _ (setState s p (Cell.Mine none false)).grid = _
    rw [hgrid, List.countP_set _ _ _ _ hidx, hcell]
    simp [countOpen]

/-! ## Preservation of the generation invariant by `generateMine` -/

theorem all_dirs_negate_mem : ∀ d ∈ ALL_DIRS, d.negate ∈ ALL_DIRS := by
  decide

theorem mem_neighbors_inField {s : GameState} {p q : Vec2}
    (h : q ∈ neighbors s p) : isOutsideField s q = false := by
  have := (List.mem_filter.mp h).2
  simpa using this

theorem neighbors_symm {s : GameState} {p q : Vec2}
    (hq : isOutsideField s q = false) (h : p ∈ neighbors s q) :
    q ∈ neighbors s p := by
  rw [neighbors, List.mem_filter] at h ⊢
  obtain ⟨hmap, hinp⟩ := h
  obtain ⟨d, hd, hpd⟩ := List.mem_map.mp hmap
  refine ⟨List.mem_map.mpr ⟨d.negate, all_dirs_negate_mem d hd, ?_⟩, by simpa using hq⟩
  rw [← hpd, Vec2.add_negate]

theorem violates_false_parts {s : GameState} {pos : Vec2}
    (h : violates s pos = false) :
    isSurrounded s pos = false ∧
    (∀ q ∈ neighbors s pos, isSurrounded s q = false) ∧
    willCreateIsland s pos = false := by
  rw [violates, Bool.or_eq_false_iff, Bool.or_eq_false_iff] at h
  obtain ⟨⟨h1, h2⟩, h3⟩ := h
  refine ⟨h1, ?_, h3⟩
  intro q hq
  rw [List.any_eq_false] at h2
  have := h2 q hq
  simpa using this

theorem not_surrounded_witness {s : GameState} {p : Vec2}
    (h : isSurrounded s p = false) :
    ∃ q, q ∈ neighbors s p ∧ isMine s q = false := by
  rw [isSurrounded, List.all_eq_false] at h
  obtain ⟨q, hq, hqm⟩ := h
  exact ⟨q, hq, by simpa using hqm⟩

theorem isMine_eq_of_getState {s s' : GameState} {p : Vec2}
    (h : getState s' p = getState s p) : isMine s' p = isMine s p := by
  rw [isMine, isMine, h]

theorem getId_congr_of_getState {s s' : GameState} {p : Vec2}
    (hdim : s'.dimension = s.dimension)
    (h : getState s' p = getState s p) : getId s' p = getId s p := by
  rw [getId, getId, h, isOutsideField_congr hdim]

theorem isOutsideField_mk_minables (s : GameState) (M : List Vec2) (p : Vec2) :
    isOutsideField { s with minables := M } p = isOutsideField s p := rfl

theorem generateMine_ok {click : Vec2} {s s' : GameState} {tape t' : List Nat}
    (hinv : StInv click s)
    (hrun : generateMine s tape = .ok (s', t')) :
    StInv click s' ∧ (SurInv s → SurInv s') ∧
    countMine s' = countMine s + 1 ∧ countClose s' + 1 = countClose s ∧
    countOpen s' = countOpen s ∧ s'.dimension = s.dimension ∧
    s'.totalMines = s.totalMines ∧
    s'.remainingClearCells = s.remainingClearCells ∧
    s'.numRemainingFlags = s.numRemainingFlags ∧ s'.wins = s.wins := by
  rw [generateMine] at hrun
  split at hrun
  · exact absurd hrun (by simp)
  · rename_i pos s1 t1 heq
    simp only [Except.ok.injEq, Prod.mk.injEq] at hrun
    obtain ⟨hs', ht'⟩ := hrun
    obtain ⟨M, hposmem, hMsub, hposnotin, hMnodup, hs1, hviol⟩ :=
      placeLoop_ok _ s tape pos s1 t1
        (fun p hp => ⟨(hinv.pool p hp).1, (hinv.pool p hp).2.1⟩)
        hinv.nodup heq
    obtain ⟨hposin, hposclose, hposnadj⟩ := hinv.pool pos hposmem
    have hposinM : isOutsideField { s with minables := M } pos = false := hposin
    have hlenM : ({ s with minables := M } : GameState).grid.length =
        ({ s with minables := M } : GameState).dimension *
          ({ s with minables := M } : GameState).dimension := hinv.len
    have hposcloseM : getState { s with minables := M } pos =
        some (Cell.Close false) := hposclose
    -- basic shape of s1
    have hdim1 : s1.dimension = s.dimension := by
      rw [hs1, setState_dimension]
    have hlen1 : s1.grid.length = s1.dimension * s1.dimension := by
      rw [hs1, setState_grid_length, setState_dimension]
      exact hlenM
    have hmin1 : s1.minables = M := by
      rw [hs1, setState_minables]
    have hposmine1 : getState s1 pos = some (Cell.Mine none false) := by
      rw [hs1]
      exact getState_setState_self _ hposinM hlenM
    have hgetne1 : ∀ q, isOutsideField s q = false → q ≠ pos →
        getState s1 q = getState s q := by
      intro q hqin hqne
      rw [hs1]
      exact getState_setState_ne _ hposinM hqin hqne
    have hno1 : ∀ c ∈ s1.grid, c ≠ Cell.Open := by
      intro c hc
      rw [hs1, setState_grid _ hposinM] at hc
      rcases List.mem_or_eq_of_mem_set hc with h | h
      · exact hinv.noOpen c h
      · rw [h]
        simp
    have hposmine1' : isMine s1 pos = true := by
      rw [isMine, hposmine1]
    -- the invariant for s1
    have hpool1 : ∀ p ∈ s1.minables, isOutsideField s1 p = false ∧
        getState s1 p = some (Cell.Close false) ∧ click.adjacentTo p = false := by
      intro p hp
      rw [hmin1] at hp
      have hpmem : p ∈ s.minables := hMsub.subset hp
      obtain ⟨hpin, hpclose, hpnadj⟩ := hinv.pool p hpmem
      have hpne : p ≠ pos := by
        intro hcontra
        rw [hcontra] at hp
        exact hposnotin hp
      refine ⟨by rw [isOutsideField_congr hdim1]; exact hpin, ?_, hpnadj⟩
      rw [hgetne1 p hpin hpne]
      exact hpclose
    have hmines1 : ∀ p, isOutsideField s1 p = false → isMine s1 p = true →
        click.adjacentTo p = false := by
      intro p hpin hpm
      rw [isOutsideField_congr hdim1] at hpin
      by_cases hpe : p = pos
      · rw [hpe]
        exact hposnadj
      · rw [isMine_eq_of_getState (hgetne1 p hpin hpe)] at hpm
        exact hinv.mines p hpin hpm
    -- cluster invariant of s' via assignId_cluster
    have hclusterOld : ∀ p dir, dir ∈ ORTHO_DIRS → isOutsideField s1 p = false →
        isOutsideField s1 (p.add dir) = false → isMine s1 p = true →
        isMine s1 (p.add dir) = true → p ≠ pos → p.add dir ≠ pos →
        getId s1 p = getId s1 (p.add dir) := by
      intro p dir hdir hpin hqin hpm hqm hpne hqne
      rw [isOutsideField_congr hdim1] at hpin hqin
      rw [isMine_eq_of_getState (hgetne1 p hpin hpne)] at hpm
      rw [isMine_eq_of_getState (hgetne1 _ hqin hqne)] at hqm
      rw [getId_congr_of_getState hdim1 (hgetne1 p hpin hpne),
        getId_congr_of_getState hdim1 (hgetne1 _ hqin hqne)]
      exact hinv.cluster p dir hdir hpin hqin hpm hqm
    have hposin1 : isOutsideField s1 pos = false := by
      rw [isOutsideField_congr hdim1]
      exact hposin
    have hcluster' : ClusterInv s' := by
      rw [← hs']
      exact assignId_cluster hlen1 hposin1 hposmine1 hno1 hclusterOld
    -- counts through the placement
    obtain ⟨hcm1, hcc1, hco1⟩ := counts_setState_mine hposinM hlenM hposcloseM
    -- assemble StInv s'
    have hdim' : s'.dimension = s.dimension := by
      rw [← hs', assignId_dimension]
      exact hdim1
    have hStInv : StInv click s' := by
      refine ⟨?_, ?_, ?_, ?_, ?_, hcluster'⟩
      · rw [← hs', assignId_grid_length, assignId_dimension]
        exact hlen1
      · rw [← hs']
        exact assignId_noOpen s1 pos hno1
      · rw [← hs', assignId_minables, hmin1]
        exact hMnodup
      · intro p hp
        rw [← hs', assignId_minables] at hp
        obtain ⟨hpin1, hpclose1, hpnadj⟩ := hpool1 p hp
        refine ⟨?_, ?_, hpnadj⟩
        · rw [isOutsideField_congr hdim', ← isOutsideField_congr hdim1]
          exact hpin1
        · rw [← hs']
          exact assignId_getState_close s1 pos p hpclose1
      · intro p hpin hpm
        rw [← hs', assignId_isMine] at hpm
        refine hmines1 p ?_ hpm
        rw [isOutsideField_congr hdim1, ← isOutsideField_congr hdim']
        exact hpin
    refine ⟨hStInv, ?_, ?_, ?_, ?_, hdim', ?_, ?_, ?_, ?_⟩
    · -- SurInv is preserved
      intro hsur
      obtain ⟨hns, hnbrs, -⟩ := violates_false_parts hviol
      have hsur1 : SurInv s1 := by
        intro p hpin1 hpnm1
        have hpin : isOutsideField s p = false := by
          rw [← isOutsideField_congr hdim1]
          exact hpin1
        have hpne : p ≠ pos := by
          intro hcontra
          rw [hcontra, hposmine1'] at hpnm1
          simp at hpnm1
        by_cases hadj : pos ∈ neighbors s1 p
        · have hpn : p ∈ neighbors s1 pos := neighbors_symm hpin1 hadj
          exact not_surrounded_witness (hnbrs p hpn)
        · have hpnm : isMine s p = false := by
            rw [← isMine_eq_of_getState (hgetne1 p hpin hpne)]
            exact hpnm1
          obtain ⟨w, hw, hwm⟩ := hsur p hpin hpnm
          have hnb_eq : neighbors s1 p = neighbors s p := neighbors_congr hdim1 p
          have hwne : w ≠ pos := by
            intro hcontra
            apply hadj
            rw [hnb_eq, ← hcontra]
            exact hw
          refine ⟨w, by rw [hnb_eq]; exact hw, ?_⟩
          rw [isMine_eq_of_getState (hgetne1 w (mem_neighbors_inField hw) hwne)]
          exact hwm
      intro p hpin' hpnm'
      have hpin1 : isOutsideField s1 p = false := by
        rw [isOutsideField_congr hdim1, ← isOutsideField_congr hdim']
        exact hpin'
      have hpnm1 : isMine s1 p = false := by
        rw [← assignId_isMine s1 pos p, hs']
        exact hpnm'
      obtain ⟨w, hw, hwm⟩ := hsur1 p hpin1 hpnm1
      have hnb_eq : neighbors s' p = neighbors s1 p := by
        refine neighbors_congr ?_ p
        rw [hdim', ← hdim1]
      refine ⟨w, by rw [hnb_eq]; exact hw, ?_⟩
      rw [← hs', assignId_isMine]
      exact hwm
    · rw [← hs', assignId_countMine, hs1]
      exact hcm1
    · rw [← hs', assignId_countClose, hs1]
      exact hcc1
    · rw [← hs', assignId_countOpen, hs1]
      exact hco1
    · rw [← hs', assignId_totalMines, hs1, setState_totalMines]
    · rw [← hs', assignId_remainingClearCells, hs1, setState_remainingClearCells]
    · rw [← hs', assignId_numRemainingFlags, hs1, setState_numRemainingFlags]
    · rw [← hs', assignId_wins, hs1, setState_wins]

/-! ## The full generation loop and the initial state -/

theorem genIter_ok {click : Vec2} :
    ∀ (n : Nat) (s : GameState) (tape : List Nat) (s' : GameState)
      (t' : List Nat),
      StInv click s → genIter n s tape = .ok (s', t') →
      StInv click s' ∧ (SurInv s → SurInv s') ∧
      countMine s' = countMine s + n ∧ countClose s' + n = countClose s ∧
      countOpen s' = countOpen s ∧ s'.dimension = s.dimension ∧
      s'.totalMines = s.totalMines ∧
      s'.remainingClearCells = s.remainingClearCells ∧
      s'.numRemainingFlags = s.numRemainingFlags ∧ s'.wins = s.wins := by
  intro n
  induction n with
  | zero =>
    intro s tape s' t' hinv hrun
    rw [genIter] at hrun
    simp only [Except.ok.injEq, Prod.mk.injEq] at hrun
    obtain ⟨rfl, -⟩ := hrun
    exact ⟨hinv, fun h => h, by omega, by omega, rfl, rfl, rfl, rfl, rfl, rfl⟩
  | succ n ih =>
    intro s tape s' t' hinv hrun
    rw [genIter] at hrun
    split at hrun
    · exact absurd hrun (by simp)
    · rename_i smid tmid heq
      obtain ⟨hinvmid, hsurmid, hcm, hcc, hco, hdim, htm, hrc, hnf, hw⟩ :=
        generateMine_ok hinv heq
      obtain ⟨hinv', hsur', hcm', hcc', hco', hdim', htm', hrc', hnf', hw'⟩ :=
        ih smid tmid s' t' hinvmid hrun
      exact ⟨hinv', fun h => hsur' (hsurmid h), by omega, by omega, by omega,
        hdim'.trans hdim, htm'.trans htm, hrc'.trans hrc, hnf'.trans hnf,
        hw'.trans hw⟩

theorem mem_allPositions {d : Nat} {p : Vec2} :
    p ∈ allPositions d ↔
      ∃ x y : Nat, x < d ∧ y < d ∧ p = ⟨(x : Int), (y : Int)⟩ := by
  rw [allPositions]
  constructor
  · intro h
    rw [List.mem_flatMap] at h
    obtain ⟨y, hy, hmem⟩ := h
    rw [List.mem_map] at hmem
    obtain ⟨x, hx, hp⟩ := hmem
    exact ⟨x, y, List.mem_range.mp hx, List.mem_range.mp hy, hp.symm⟩
  · rintro ⟨x, y, hx, hy, rfl⟩
    rw [List.mem_flatMap]
    exact ⟨y, List.mem_range.mpr hy,
      List.mem_map.mpr ⟨x, List.mem_range.mpr hx, rfl⟩⟩

theorem allPositions_nodup (d : Nat) : (allPositions d).Nodup := by
  rw [allPositions, List.nodup_flatMap]
  constructor
  · intro y hy
    show ((List.range d).map
      (fun (x : Nat) => (⟨(x : Int), (y : Int)⟩ : Vec2))).Nodup
    refine List.Nodup.map ?_ (List.nodup_range d)
    intro a b hab
    simp only [Vec2.mk.injEq, Int.natCast_inj] at hab
    exact hab.1
  · refine List.Pairwise.imp ?_ (List.nodup_range d)
    intro a b hab
    intro v hva hvb
    have hva' : v ∈ (List.range d).map
        (fun (x : Nat) => (⟨(x : Int), (a : Int)⟩ : Vec2)) := hva
    have hvb' : v ∈ (List.range d).map
        (fun (x : Nat) => (⟨(x : Int), (b : Int)⟩ : Vec2)) := hvb
    obtain ⟨x1, hx1, he1⟩ := List.mem_map.mp hva'
    obtain ⟨x2, hx2, he2⟩ := List.mem_map.mp hvb'
    rw [← he1] at he2
    simp only [Vec2.mk.injEq, Int.natCast_inj] at he2
    exact hab he2.2.symm

theorem initGame_getState {d m : Nat} {click : Vec2} {p : Vec2}
    (hin : isOutsideField (buildMinables (initGame d m) click) p = false) :
    getState (buildMinables (initGame d m) click) p = some (Cell.Close false) := by
  have hin' : isOutsideField (initGame d m) p = false := hin
  rw [getState_of_inField hin]
  have hlt : (cellIndex (initGame d m) p).toNat < d * d :=
    cellIndex_toNat_lt hin'
  show (List.replicate (d * d) (Cell.Close false)).get?
    (cellIndex (initGame d m) p).toNat = some (Cell.Close false)
  rw [List.get?_eq_getElem?, List.getElem?_replicate, if_pos hlt]

theorem initGame_no_mine (d m : Nat) (click : Vec2) (p : Vec2) :
    isMine (buildMinables (initGame d m) click) p = false := by
  rw [isMine]
  rcases hg : getState (buildMinables (initGame d m) click) p with - | c
  · rfl
  · have := getState_mem hg
    have hc : c = Cell.Close false := List.eq_of_mem_replicate this
    rw [hc]

theorem initGame_inv (d m : Nat) (click : Vec2) :
    StInv click (buildMinables (initGame d m) click) := by
  refine ⟨?_, ?_, ?_, ?_, ?_, ?_⟩
  · show (List.replicate (d * d) (Cell.Close false)).length = d * d
    simp
  · intro c hc
    have : c = Cell.Close false := List.eq_of_mem_replicate hc
    rw [this]
    simp
  · show ((allPositions d).filter _).Nodup
    exact (allPositions_nodup d).filter _
  · intro p hp
    have hp' : p ∈ (allPositions d).filter
        (fun p => !click.adjacentTo p) := hp
    rw [List.mem_filter] at hp'
    obtain ⟨hpall, hpnadj⟩ := hp'
    obtain ⟨x, y, hx, hy, rfl⟩ := mem_allPositions.mp hpall
    have hin : isOutsideField (buildMinables (initGame d m) click)
        ⟨(x : Int), (y : Int)⟩ = false := by
      rw [isOutsideField_eq_false]
      refine ⟨by positivity, ?_, by positivity, ?_⟩
      · show (x : Int) < ((initGame d m).dimension : Int)
        simp [initGame]
        exact_mod_cast hx
      · show (y : Int) < ((initGame d m).dimension : Int)
        simp [initGame]
        exact_mod_cast hy
    refine ⟨hin, initGame_getState hin, ?_⟩
    simpa using hpnadj
  · intro p hpin hpm
    rw [initGame_no_mine] at hpm
    simp at hpm
  · intro p dir hdir hpin hqin hpm hqm
    rw [initGame_no_mine] at hpm
    simp at hpm

theorem initGame_sur {d m : Nat} {click : Vec2} (hd : 2 ≤ d) :
    SurInv (buildMinables (initGame d m) click) := by
  intro p hpin hpnm
  have hpin' : 0 ≤ p.x ∧ p.x < (d : Int) ∧ 0 ≤ p.y ∧ p.y < (d : Int) := by
    have := isOutsideField_eq_false.mp hpin
    exact this
  by_cases hx : p.x + 1 < (d : Int)
  · refine ⟨p.add EAST, ?_, initGame_no_mine d m click _⟩
    rw [neighbors, List.mem_filter]
    refine ⟨List.mem_map.mpr ⟨EAST, by decide, rfl⟩, ?_⟩
    have : isOutsideField (buildMinables (initGame d m) click) (p.add EAST) = false := by
      rw [isOutsideField_eq_false]
      show 0 ≤ p.x + 1 ∧ p.x + 1 < (d : Int) ∧ 0 ≤ p.y + 0 ∧ p.y + 0 < (d : Int)
      omega
    rw [this]
    rfl
  · refine ⟨p.add WEST, ?_, initGame_no_mine d m click _⟩
    rw [neighbors, List.mem_filter]
    refine ⟨List.mem_map.mpr ⟨WEST, by decide, rfl⟩, ?_⟩
    have : isOutsideField (buildMinables (initGame d m) click) (p.add WEST) = false := by
      rw [isOutsideField_eq_false]
      show 0 ≤ p.x + -1 ∧ p.x + -1 < (d : Int) ∧ 0 ≤ p.y + 0 ∧ p.y + 0 < (d : Int)
      have hd' : (2 : Int) ≤ (d : Int) := by exact_mod_cast hd
      omega
    rw [this]
    rfl

theorem initGame_counts (d m : Nat) (click : Vec2) :
    countMine (buildMinables (initGame d m) click) = 0 ∧
    countClose (buildMinables (initGame d m) click) = d * d ∧
    countOpen (buildMinables (initGame d m) click) = 0 := by
  refine ⟨?_, ?_, ?_⟩ <;>
  · show List.countP _ (List.replicate (d * d) (Cell.Close false)) = _
    rw [List.countP_replicate]
    simp

/-! ## The claims -/

/-- C3: if `populateMines` returns without the exhausted-pool error on a
`d × d` grid initially all `Close`, the board has exactly `m` mine cells,
exactly `d*d - m` `Close` cells, and no `Open` cell. -/
theorem c3_mine_count_exact (d m : Nat) (click : Vec2) (tape : List Nat)
    (s' : GameState) (t' : List Nat)
    (hrun : populateMines (initGame d m) click tape = .ok (s', t')) :
    countMine s' = m ∧ countClose s' = d * d - m ∧ countOpen s' = 0 := by
  rw [populateMines] at hrun
  obtain ⟨-, -, hcm, hcc, hco, -⟩ :=
    genIter_ok _ _ tape s' t' (initGame_inv d m click) hrun
  obtain ⟨him, hic, hio⟩ := initGame_counts d m click
  have htm : (initGame d m).totalMines = m := rfl
  rw [htm] at hcm hcc
  refine ⟨by omega, by omega, by omega⟩

theorem c3_mine_count_exact_witness :
    countMine (runState (populateMines (initGame 4 1) ⟨0, 0⟩ [6])) = 1 ∧
    countClose (runState (populateMines (initGame 4 1) ⟨0, 0⟩ [6])) = 4 * 4 - 1 ∧
    countOpen (runState (populateMines (initGame 4 1) ⟨0, 0⟩ [6])) = 0 :=
  c3_mine_count_exact 4 1 ⟨0, 0⟩ [6] _ _ (by rfl)

/-- C4: on any board produced by a successful `populateMines` run, no mine
cell lies within Chebyshev distance 1 of the first click. -/
theorem c4_safe_zone (d m : Nat) (clickPos : Vec2) (tape : List Nat)
    (s' : GameState) (t' : List Nat)
    (hrun : populateMines (initGame d m) clickPos tape = .ok (s', t'))
    (p : Vec2) (hin : isOutsideField s' p = false) (hm : isMine s' p = true) :
    clickPos.adjacentTo p = false := by
  rw [populateMines] at hrun
  obtain ⟨hinv', -⟩ :=
    genIter_ok _ _ tape s' t' (initGame_inv d m clickPos) hrun
  exact hinv'.mines p hin hm

theorem c4_safe_zone_witness :
    isOutsideField (runState (populateMines (initGame 4 1) ⟨0, 0⟩ [6])) ⟨2, 2⟩ = false ∧
    isMine (runState (populateMines (initGame 4 1) ⟨0, 0⟩ [6])) ⟨2, 2⟩ = true ∧
    Vec2.adjacentTo ⟨0, 0⟩ ⟨2, 2⟩ = false :=
  ⟨by decide, by decide,
    c4_safe_zone 4 1 ⟨0, 0⟩ [6] _ _ (by rfl) ⟨2, 2⟩ (by decide) (by decide)⟩

/-- C5: after every completed `generateMine` call of the `populateMines`
loop — the state after `k` placements for any `k`, hence in particular
between placements and when `populateMines` returns — any two orthogonally
adjacent in-field mine cells carry equal group ids. -/
theorem c5_cluster_closure (d m k : Nat) (click : Vec2) (tape : List Nat)
    (s' : GameState) (t' : List Nat)
    (hrun : genIter k (buildMinables (initGame d m) click) tape = .ok (s', t')) :
    ClusterInv s' :=
  (genIter_ok k _ tape s' t' (initGame_inv d m click) hrun).1.cluster

theorem c5_cluster_closure_witness :
    isMine (runState (genIter 2 (buildMinables (initGame 4 2) ⟨0, 0⟩)
      [11, 1])) ⟨2, 0⟩ = true ∧
    isMine (runState (genIter 2 (buildMinables (initGame 4 2) ⟨0, 0⟩)
      [11, 1])) (Vec2.add ⟨2, 0⟩ SOUTH) = true ∧
    getId (runState (genIter 2 (buildMinables (initGame 4 2) ⟨0, 0⟩)
      [11, 1])) ⟨2, 0⟩ =
      getId (runState (genIter 2 (buildMinables (initGame 4 2) ⟨0, 0⟩)
        [11, 1])) (Vec2.add ⟨2, 0⟩ SOUTH) :=
  ⟨by decide, by decide,
    c5_cluster_closure 4 2 2 ⟨0, 0⟩ [11, 1] _ _ (by rfl)
      ⟨2, 0⟩ SOUTH (by decide) (by decide) (by decide) (by decide) (by decide)⟩

/-- C2: on any board produced by a successful `populateMines` run with
dimension at least 2 (the game fixes `dimension = 12`), every in-field
non-mine cell has an in-bounds neighbor that is not a mine. -/
theorem c2_no_full_surround (d m : Nat) (hd : 2 ≤ d) (clickPos : Vec2)
    (tape : List Nat) (s' : GameState) (t' : List Nat)
    (hrun : populateMines (initGame d m) clickPos tape = .ok (s', t'))
    (p : Vec2) (hin : isOutsideField s' p = false)
    (hnm : isMine s' p = false) :
    ∃ q, q ∈ neighbors s' p ∧ isMine s' q = false := by
  rw [populateMines] at hrun
  obtain ⟨-, hsur, -⟩ :=
    genIter_ok _ _ tape s' t' (initGame_inv d m clickPos) hrun
  exact hsur (initGame_sur hd) p hin hnm

theorem c2_no_full_surround_witness :
    isOutsideField (runState (populateMines (initGame 4 1) ⟨0, 0⟩ [6])) ⟨0, 0⟩ = false ∧
    isMine (runState (populateMines (initGame 4 1) ⟨0, 0⟩ [6])) ⟨0, 0⟩ = false ∧
    ∃ q, q ∈ neighbors (runState (populateMines (initGame 4 1) ⟨0, 0⟩ [6])) ⟨0, 0⟩ ∧
      isMine (runState (populateMines (initGame 4 1) ⟨0, 0⟩ [6])) q = false :=
  ⟨by decide, by decide,
    c2_no_full_surround 4 1 (by norm_num) ⟨0, 0⟩ [6] _ _ (by rfl)
      ⟨0, 0⟩ (by decide) (by decide)⟩

/-! ## The id assigned to an isolated accepted mine -/

theorem isEmpty_of_inField_not_mine {s : GameState} {x : Vec2}
    (hno : ∀ c ∈ s.grid, c ≠ Cell.Open)
    (hin : isOutsideField s x = false)
    (hlen : s.grid.length = s.dimension * s.dimension)
    (hnm : isMine s x = false) : isEmpty s x = true := by
  by_cases he : isEmpty s x = true
  · exact he
  · have := isMine_of_notEmpty hno hin hlen (Bool.not_eq_true _ ▸ he)
    rw [this] at hnm
    exact absurd hnm (by simp)

theorem assignId_filter_oob {s1 : GameState} {pos : Vec2}
    (hcl : ∀ dir ∈ ORTHO_DIRS, isOutsideField s1 (pos.add dir) = false →
      isEmpty s1 (pos.add dir) = true) :
    ORTHO_DIRS.filter (fun dir => !isEmpty s1 (pos.add dir)) =
      ORTHO_DIRS.filter (fun dir => isOutsideField s1 (pos.add dir)) := by
  apply List.filter_congr
  intro d hd
  cases ho : isOutsideField s1 (pos.add d) with
  | false => rw [hcl d hd ho]; rfl
  | true => simp [isEmpty, ho]

theorem foldl_min_zero (g : Nat → Vec2 → Nat) :
    ∀ (L : List Vec2), L ≠ [] → (∀ a, ∀ d ∈ L, g a d = Nat.min a 0) →
      ∀ a, L.foldl g a = 0 := by
  intro L
  induction L with
  | nil => intro h; exact absurd rfl h
  | cons d rest ih =>
    intro _ hg a
    have h0 : Nat.min a 0 = 0 := by
      unfold Nat.min
      omega
    rw [List.foldl_cons, hg a d (List.mem_cons_self d rest), h0]
    by_cases hr : rest = []
    · subst hr; rfl
    · exact ih hr (fun b q hq => hg b q (List.mem_cons_of_mem d hq)) 0

theorem updateId_oob {s : GameState} {p : Vec2} {v : Nat} {fd : Vec2}
    (h : isOutsideField s p = true) :
    ∀ n, updateId n p v fd s = s := by
  intro n
  cases n with
  | zero => rfl
  | succ k => simp [updateId_succ_eq, h]

theorem assignFold_oob (s2 : GameState) (pos : Vec2) (V : Nat) :
    ∀ (L : List Vec2),
      (∀ d ∈ L, isOutsideField s2 (pos.add d) = true) →
      L.foldl (fun acc dir =>
        updateId acc.grid.length (pos.add dir) V dir.negate acc) s2 = s2 := by
  intro L
  induction L with
  | nil => intro h; rfl
  | cons d rest ih =>
    intro h
    simp only [List.foldl_cons]
    rw [updateId_oob (h d (List.mem_cons_self d rest)) s2.grid.length]
    exact ih (fun q hq => h q (List.mem_cons_of_mem d hq))

theorem assignId_boundary {s1 : GameState} {pos : Vec2}
    (hlen : s1.grid.length = s1.dimension * s1.dimension)
    (hin : isOutsideField s1 pos = false)
    (hm : getState s1 pos = some (Cell.Mine none false))
    (hcl : ∀ dir ∈ ORTHO_DIRS, isOutsideField s1 (pos.add dir) = false →
      isEmpty s1 (pos.add dir) = true)
    (hb : ∃ dir ∈ ORTHO_DIRS, isOutsideField s1 (pos.add dir) = true) :
    getId (assignId s1 pos) pos = some 0 := by
  obtain ⟨d0, hd0, hd0oob⟩ := hb
  simp only [assignId]
  rw [assignId_filter_oob hcl]
  set D := ORTHO_DIRS.filter (fun dir => isOutsideField s1 (pos.add dir))
    with hD
  have hd0D : d0 ∈ D := by
    rw [hD]
    exact List.mem_filter.mpr ⟨hd0, hd0oob⟩
  have hDne : D ≠ [] := by
    intro h
    rw [h] at hd0D
    exact absurd hd0D (List.not_mem_nil d0)
  have hlenD : D.length > 0 := List.length_pos.mpr hDne
  rw [if_pos hlenD]
  have hfold : D.foldl (fun a dir =>
      match getId s1 (pos.add dir) with
      | some k => Nat.min a k
      | none => a) s1.currentId = 0 := by
    refine foldl_min_zero _ D hDne ?_ s1.currentId
    intro a q hq
    have hqoob : isOutsideField s1 (pos.add q) = true := by
      have h' := hq
      rw [hD] at h'
      simp only [List.mem_filter] at h'
      exact h'.2
    show (match getId s1 (pos.add q) with
      | some k => Nat.min a k
      | none => a) = Nat.min a 0
    rw [getId_of_outside hqoob]
  rw [hfold]
  have hdim2 : (setId s1 pos 0).dimension = s1.dimension :=
    (setId_recolor s1 pos 0).1
  have hoobAll : ∀ q ∈ D, isOutsideField (setId s1 pos 0) (pos.add q) = true := by
    intro q hq
    rw [isOutsideField_congr hdim2]
    have h' := hq
    rw [hD] at h'
    simp only [List.mem_filter] at h'
    exact h'.2
  rw [assignFold_oob _ _ _ D hoobAll]
  exact getId_setId_self hin hlen hm

theorem assignId_interior {s1 : GameState} {pos : Vec2}
    (hin : isOutsideField s1 pos = false)
    (hm : getState s1 pos = some (Cell.Mine none false))
    (hcl : ∀ dir ∈ ORTHO_DIRS, isEmpty s1 (pos.add dir) = true) :
    getId (assignId s1 pos) pos = none ∧
      (assignId s1 pos).currentId = s1.currentId := by
  have hD : ORTHO_DIRS.filter (fun dir => !isEmpty s1 (pos.add dir)) = [] := by
    rw [List.filter_eq_nil_iff]
    intro d hd
    rw [hcl d hd]
    simp
  have hA : assignId s1 pos = s1 := by
    simp only [assignId, hD]
    simp
  rw [hA]
  refine ⟨?_, rfl⟩
  simp [getId, hin, hm]

theorem accepted_mine_shape {click : Vec2} {s : GameState} {tape : List Nat}
    {pos : Vec2} {s1 : GameState} {t1 : List Nat}
    (hinv : StInv click s)
    (hpl : placeLoop s.minables.length s tape = .ok (pos, s1, t1)) :
    s1.grid.length = s1.dimension * s1.dimension ∧
    isOutsideField s1 pos = false ∧
    getState s1 pos = some (Cell.Mine none false) ∧
    (∀ c ∈ s1.grid, c ≠ Cell.Open) := by
  obtain ⟨M, hposmem, -, -, -, hs1, -⟩ :=
    placeLoop_ok _ s tape pos s1 t1
      (fun p hp => ⟨(hinv.pool p hp).1, (hinv.pool p hp).2.1⟩) hinv.nodup hpl
  obtain ⟨hposin, hposclose, -⟩ := hinv.pool pos hposmem
  have hposinM : isOutsideField { s with minables := M } pos = false := hposin
  have hlenM : ({ s with minables := M } : GameState).grid.length =
      ({ s with minables := M } : GameState).dimension *
        ({ s with minables := M } : GameState).dimension := hinv.len
  have hdim1 : s1.dimension = s.dimension := by
    rw [hs1, setState_dimension]
  have hlen1 : s1.grid.length = s1.dimension * s1.dimension := by
    rw [hs1, setState_grid_length, setState_dimension]
    exact hlenM
  have hin1 : isOutsideField s1 pos = false := by
    rw [isOutsideField_congr hdim1]
    exact hposin
  have hm1 : getState s1 pos = some (Cell.Mine none false) := by
    rw [hs1]
    exact getState_setState_self _ hposinM hlenM
  have hno1 : ∀ c ∈ s1.grid, c ≠ Cell.Open := by
    intro c hc
    rw [hs1, setState_grid _ hposinM] at hc
    rcases List.mem_or_eq_of_mem_set hc with h | h
    · exact hinv.noOpen c h
    · rw [h]
      simp
  exact ⟨hlen1, hin1, hm1, hno1⟩

/-- C6: corrected form.  When `generateMine` accepts a mine at `pos` with no
orthogonally adjacent mine, no fresh nonzero id is handed out: if some
orthogonal neighbor of `pos` lies out of bounds, the mine receives the
out-of-bounds sentinel id 0, and otherwise the mine keeps the unassigned id
(`none` — JavaScript `null`) and `currentId` does not advance. -/
theorem c6_isolated_mine_id (click : Vec2) (s : GameState) (tape : List Nat)
    (pos : Vec2) (s1 : GameState) (t1 : List Nat)
    (hinv : StInv click s)
    (hpl : placeLoop s.minables.length s tape = .ok (pos, s1, t1))
    (hnoadj : ∀ dir ∈ ORTHO_DIRS, isMine s1 (pos.add dir) = false) :
    generateMine s tape = .ok (assignId s1 pos, t1) ∧
    ((∃ dir ∈ ORTHO_DIRS, isOutsideField s1 (pos.add dir) = true) →
      getId (assignId s1 pos) pos = some 0) ∧
    ((∀ dir ∈ ORTHO_DIRS, isOutsideField s1 (pos.add dir) = false) →
      getId (assignId s1 pos) pos = none ∧
        (assignId s1 pos).currentId = s1.currentId) := by
  obtain ⟨hlen1, hin1, hm1, hno1⟩ := accepted_mine_shape hinv hpl
  have hcl : ∀ dir ∈ ORTHO_DIRS, isOutsideField s1 (pos.add dir) = false →
      isEmpty s1 (pos.add dir) = true := fun dir hdir hq =>
    isEmpty_of_inField_not_mine hno1 hq hlen1 (hnoadj dir hdir)
  refine ⟨?_, ?_, ?_⟩
  · rw [generateMine, hpl]
  · intro hb
    exact assignId_boundary hlen1 hin1 hm1 hcl hb
  · intro hall
    exact assignId_interior hin1 hm1 (fun dir hdir => hcl dir hdir (hall dir hdir))

theorem c6_isolated_mine_id_witness :
    (∀ dir ∈ ORTHO_DIRS,
      isMine
        (plState (placeLoop
          (buildMinables (initGame 4 1) ⟨0, 0⟩).minables.length
          (buildMinables (initGame 4 1) ⟨0, 0⟩) [0]))
        ((plPos (placeLoop
          (buildMinables (initGame 4 1) ⟨0, 0⟩).minables.length
          (buildMinables (initGame 4 1) ⟨0, 0⟩) [0])).add dir) = false) ∧
    getId
      (assignId
        (plState (placeLoop
          (buildMinables (initGame 4 1) ⟨0, 0⟩).minables.length
          (buildMinables (initGame 4 1) ⟨0, 0⟩) [0]))
        (plPos (placeLoop
          (buildMinables (initGame 4 1) ⟨0, 0⟩).minables.length
          (buildMinables (initGame 4 1) ⟨0, 0⟩) [0])))
      (plPos (placeLoop
        (buildMinables (initGame 4 1) ⟨0, 0⟩).minables.length
        (buildMinables (initGame 4 1) ⟨0, 0⟩) [0])) = some 0 :=
  ⟨by decide,
    (c6_isolated_mine_id ⟨0, 0⟩ (buildMinables (initGame 4 1) ⟨0, 0⟩) [0]
      _ _ _ (initGame_inv 4 1 ⟨0, 0⟩) (by rfl) (by decide)).2.1 (by decide)⟩

/-- C6 as stated in the specification is false: the first mine accepted at
the boundary cell (2,0) of a 4 by 4 board is isolated, yet its assigned id
is the sentinel 0 rather than a fresh nonzero id. -/
theorem c6_as_stated_false : ¬ C6AsStated := by
  intro h
  obtain ⟨k, hk, hk0, -⟩ :=
    h (buildMinables (initGame 4 1) ⟨0, 0⟩) [0]
      (plPos (placeLoop
        (buildMinables (initGame 4 1) ⟨0, 0⟩).minables.length
        (buildMinables (initGame 4 1) ⟨0, 0⟩) [0]))
      (plState (placeLoop
        (buildMinables (initGame 4 1) ⟨0, 0⟩).minables.length
        (buildMinables (initGame 4 1) ⟨0, 0⟩) [0]))
      (plTape (placeLoop
        (buildMinables (initGame 4 1) ⟨0, 0⟩).minables.length
        (buildMinables (initGame 4 1) ⟨0, 0⟩) [0]))
      (by rfl) (by decide)
  have h0 : getId
      (assignId
        (plState (placeLoop
          (buildMinables (initGame 4 1) ⟨0, 0⟩).minables.length
          (buildMinables (initGame 4 1) ⟨0, 0⟩) [0]))
        (plPos (placeLoop
          (buildMinables (initGame 4 1) ⟨0, 0⟩).minables.length
          (buildMinables (initGame 4 1) ⟨0, 0⟩) [0])))
      (plPos (placeLoop
        (buildMinables (initGame 4 1) ⟨0, 0⟩).minables.length
        (buildMinables (initGame 4 1) ⟨0, 0⟩) [0])) = some 0 := by decide
  rw [h0] at hk
  exact hk0 (Option.some.inj hk.symm)

/-- C10: when `generateMine` accepts a mine at a boundary cell (one with an
out-of-bounds orthogonal neighbor) that has no orthogonally adjacent mine,
the mine's group id is set to 0 — the same value `getId` returns for every
out-of-bounds position. -/
theorem c10_boundary_sentinel_id (click : Vec2) (s : GameState)
    (tape : List Nat) (pos : Vec2) (s1 : GameState) (t1 : List Nat)
    (hinv : StInv click s)
    (hpl : placeLoop s.minables.length s tape = .ok (pos, s1, t1))
    (hnoadj : ∀ dir ∈ ORTHO_DIRS, isMine s1 (pos.add dir) = false)
    (hb : ∃ dir ∈ ORTHO_DIRS, isOutsideField s1 (pos.add dir) = true) :
    generateMine s tape = .ok (assignId s1 pos, t1) ∧
    getId (assignId s1 pos) pos = some 0 ∧
    (∀ q, isOutsideField (assignId s1 pos) q = true →
      getId (assignId s1 pos) q = some 0) := by
  obtain ⟨hlen1, hin1, hm1, hno1⟩ := accepted_mine_shape hinv hpl
  have hcl : ∀ dir ∈ ORTHO_DIRS, isOutsideField s1 (pos.add dir) = false →
      isEmpty s1 (pos.add dir) = true := fun dir hdir hq =>
    isEmpty_of_inField_not_mine hno1 hq hlen1 (hnoadj dir hdir)
  refine ⟨?_, ?_, ?_⟩
  · rw [generateMine, hpl]
  · exact assignId_boundary hlen1 hin1 hm1 hcl hb
  · intro q hq
    exact getId_of_outside hq

theorem c10_boundary_sentinel_id_witness :
    (∃ dir ∈ ORTHO_DIRS,
      isOutsideField
        (plState (placeLoop
          (buildMinables (initGame 5 1) ⟨0, 0⟩).minables.length
          (buildMinables (initGame 5 1) ⟨0, 0⟩) [1]))
        ((plPos (placeLoop
          (buildMinables (initGame 5 1) ⟨0, 0⟩).minables.length
          (buildMinables (initGame 5 1) ⟨0, 0⟩) [1])).add dir) = true) ∧
    getId
      (assignId
        (plState (placeLoop
          (buildMinables (initGame 5 1) ⟨0, 0⟩).minables.length
          (buildMinables (initGame 5 1) ⟨0, 0⟩) [1]))
        (plPos (placeLoop
          (buildMinables (initGame 5 1) ⟨0, 0⟩).minables.length
          (buildMinables (initGame 5 1) ⟨0, 0⟩) [1])))
      (plPos (placeLoop
        (buildMinables (initGame 5 1) ⟨0, 0⟩).minables.length
        (buildMinables (initGame 5 1) ⟨0, 0⟩) [1])) = some 0 :=
  ⟨by decide,
    (c10_boundary_sentinel_id ⟨0, 0⟩ (buildMinables (initGame 5 1) ⟨0, 0⟩) [1]
      _ _ _ (initGame_inv 5 1 ⟨0, 0⟩) (by rfl) (by decide) (by decide)).2.1⟩

/-- C9 as stated is false: on a 4 by 4 board with first click (0,0) the
eligible pool does not have 7 entries. -/
theorem c9_as_stated_false :
    ¬ (buildMinables (initGame 4 2) ⟨0, 0⟩).minables.length = 7 := by decide

/-- C9: corrected form.  On a 4 by 4 board with first click (0,0) the
eligible pool consists of the 12 positions outside the on-board part of the
3 by 3 block around (0,0) — the block clips to 4 cells at the corner, so 12
of the 16 positions remain, not 7. -/
theorem c9_pool_size :
    (buildMinables (initGame 4 2) ⟨0, 0⟩).minables.length = 12 ∧
    (buildMinables (initGame 4 2) ⟨0, 0⟩).minables =
      [⟨2, 0⟩, ⟨3, 0⟩, ⟨2, 1⟩, ⟨3, 1⟩, ⟨0, 2⟩, ⟨1, 2⟩, ⟨2, 2⟩, ⟨3, 2⟩,
        ⟨0, 3⟩, ⟨1, 3⟩, ⟨2, 3⟩, ⟨3, 3⟩] :=
  ⟨by decide, by decide⟩

/-! ## The reveal procedure: counter bookkeeping and the win trigger -/

theorem openAll_nil (fuel : Nat) (s : GameState) : openAll fuel [] s = s := rfl

theorem openAll_cons (fuel : Nat) (q : Vec2) (rest : List Vec2)
    (s : GameState) :
    openAll fuel (q :: rest) s =
      openAll fuel rest (if isEmpty s q then openCell fuel q s else s) := by
  rw [openAll, openAll, List.foldl_cons]

theorem isEmpty_elim {s : GameState} {p : Vec2} (h : isEmpty s p = true) :
    isOutsideField s p = false ∧ ∃ b, getState s p = some (Cell.Close b) := by
  rw [isEmpty] at h
  simp only [Bool.and_eq_true, Bool.not_eq_true'] at h
  obtain ⟨h1, h2⟩ := h
  refine ⟨h1, ?_⟩
  rcases hg : getState s p with _ | c
  · rw [hg] at h2
    exact absurd h2 (by simp)
  · cases c with
    | Open =>
      rw [hg] at h2
      exact absurd h2 (by simp)
    | Close f => exact ⟨f, rfl⟩
    | Mine j f =>
      rw [hg] at h2
      exact absurd h2 (by simp)

theorem countClose_pos_of_close {s : GameState} {p : Vec2} {b : Bool}
    (hin : isOutsideField s p = false)
    (hlen : s.grid.length = s.dimension * s.dimension)
    (hget : getState s p = some (Cell.Close b)) : 0 < countClose s := by
  have hidx : (cellIndex s p).toNat < s.grid.length := by
    rw [hlen]
    exact cellIndex_toNat_lt hin
  have hcell : s.grid[(cellIndex s p).toNat] = Cell.Close b := by
    rw [getState_of_inField hin, List.get?_eq_getElem?,
      List.getElem?_eq_getElem hidx] at hget
    exact Option.some.inj hget
  rw [countClose, List.countP_pos_iff]
  refine ⟨_, List.getElem_mem hidx, ?_⟩
  rw [hcell]

theorem counts_setState_open {s : GameState} {p : Vec2} {b : Bool}
    (hin : isOutsideField s p = false)
    (hlen : s.grid.length = s.dimension * s.dimension)
    (hget : getState s p = some (Cell.Close b)) :
    countMine (setState s p Cell.Open) = countMine s ∧
    countClose (setState s p Cell.Open) + 1 = countClose s ∧
    countOpen (setState s p Cell.Open) = countOpen s + 1 := by
  have hidx : (cellIndex s p).toNat < s.grid.length := by
    rw [hlen]
    exact cellIndex_toNat_lt hin
  have hcell : s.grid[(cellIndex s p).toNat] = Cell.Close b := by
    rw [getState_of_inField hin, List.get?_eq_getElem?,
      List.getElem?_eq_getElem hidx] at hget
    exact Option.some.inj hget
  have hclosePos : 0 < countClose s := countClose_pos_of_close hin hlen hget
  have hgrid : (setState s p Cell.Open).grid =
      s.grid.set (cellIndex s p).toNat Cell.Open := setState_grid _ hin
  refine ⟨?_, ?_, ?_⟩
  · show List.countP _ (setState s p Cell.Open).grid = _
    rw [hgrid, List.countP_set _ _ _ _ hidx, hcell]
    simp [countMine]
  · show List.countP _ (setState s p Cell.Open).grid + 1 = _
    rw [hgrid, List.countP_set _ _ _ _ hidx, hcell]
    rw [countClose] at hclosePos ⊢
    simp
    omega
  · show List.countP _ (setState s p Cell.Open).grid = _
    rw [hgrid, List.countP_set _ _ _ _ hidx, hcell]
    simp [countOpen]

theorem OpenStep.trans_pos {s t r : GameState} {w : Int} (hw : 1 ≤ w)
    (h1 : OpenStep s t w) (h2 : OpenStep t r w) : OpenStep s r w := by
  obtain ⟨a1, b1, c1, d1, e1, f1, g1, i1, j1, k1⟩ := h1
  obtain ⟨a2, b2, c2, d2, e2, f2, g2, i2, j2, k2⟩ := h2
  refine ⟨a2.trans a1, b2.trans b1, c2.trans c1, d2.trans d1, e2.trans e1,
    f2.trans f1, by omega, i2.trans i1, j2, ?_⟩
  have hz : ¬ (w = 0 ∧ countClose r = 0) := by
    rintro ⟨hw0, -⟩
    omega
  have hz' : ¬ (w = 0 ∧ countClose t = 0) := by
    rintro ⟨hw0, -⟩
    omega
  rw [k2, k1, if_neg hz, if_neg hz']

theorem OpenStep.refl_pos {s : GameState} {w : Int} (hw : 1 ≤ w)
    (hrcc : s.remainingClearCells = (countClose s : Int) + w) :
    OpenStep s s w := by
  refine ⟨rfl, rfl, rfl, rfl, rfl, rfl, rfl, le_refl _, hrcc, ?_⟩
  have hz : ¬ (w = 0 ∧ countClose s = 0) := by
    rintro ⟨hw0, -⟩
    omega
  rw [if_neg hz]
  rfl

theorem openAll_run_of (fuel : Nat)
    (hOC : ∀ (pos : Vec2) (s : GameState) (w : Int),
      s.grid.length = s.dimension * s.dimension → 0 ≤ w →
      s.remainingClearCells = (countClose s : Int) + w →
      isEmpty s pos = true → countClose s ≤ fuel →
      OpenStep s (openCell fuel pos s) w ∧
        countClose (openCell fuel pos s) < countClose s) :
    ∀ (qs : List Vec2) (s : GameState) (v : Int),
      s.grid.length = s.dimension * s.dimension → 1 ≤ v →
      s.remainingClearCells = (countClose s : Int) + v →
      countClose s ≤ fuel →
      OpenStep s (openAll fuel qs s) v := by
  intro qs
  induction qs with
  | nil =>
    intro s v hlen hv hrcc hfuel
    rw [openAll_nil]
    exact OpenStep.refl_pos hv hrcc
  | cons q rest ih =>
    intro s v hlen hv hrcc hfuel
    rw [openAll_cons]
    have hstep : OpenStep s (if isEmpty s q then openCell fuel q s else s) v := by
      split
      · rename_i he
        exact (hOC q s v hlen (by omega) hrcc he hfuel).1
      · exact OpenStep.refl_pos hv hrcc
    set t := if isEmpty s q then openCell fuel q s else s with ht
    obtain ⟨a1, b1, c1, d1, e1, f1, g1, i1, j1, k1⟩ := hstep
    have hlent : t.grid.length = t.dimension * t.dimension := by
      rw [e1, a1]
      exact hlen
    have hrest : OpenStep t (openAll fuel rest t) v :=
      ih t v hlent hv j1 (le_trans i1 hfuel)
    exact OpenStep.trans_pos hv
      ⟨a1, b1, c1, d1, e1, f1, g1, i1, j1, k1⟩ hrest

theorem openCell_run :
    ∀ (fuel : Nat) (pos : Vec2) (s : GameState) (w : Int),
      s.grid.length = s.dimension * s.dimension → 0 ≤ w →
      s.remainingClearCells = (countClose s : Int) + w →
      isEmpty s pos = true → countClose s ≤ fuel →
      OpenStep s (openCell fuel pos s) w ∧
        countClose (openCell fuel pos s) < countClose s := by
  intro fuel
  induction fuel with
  | zero =>
    intro pos s w hlen hw0 hrcc he hfuel
    obtain ⟨hin, b, hget⟩ := isEmpty_elim he
    have := countClose_pos_of_close hin hlen hget
    omega
  | succ fuel ih =>
    intro pos s w hlen hw0 hrcc he hfuel
    obtain ⟨hin, b, hget⟩ := isEmpty_elim he
    set s0 := (if flaggedAt s pos then
        { s with numRemainingFlags := s.numRemainingFlags + 1 } else s)
      with hs0
    have h0 : s0.grid = s.grid ∧ s0.dimension = s.dimension ∧
        s0.totalMines = s.totalMines ∧ s0.minables = s.minables ∧
        s0.currentId = s.currentId ∧
        s0.remainingClearCells = s.remainingClearCells ∧
        s0.wins = s.wins := by
      rw [hs0]
      split <;> exact ⟨rfl, rfl, rfl, rfl, rfl, rfl, rfl⟩
    have hcounts0 : countMine s0 = countMine s ∧ countClose s0 = countClose s ∧
        countOpen s0 = countOpen s := by
      rw [hs0]
      split <;> exact ⟨rfl, rfl, rfl⟩
    have hgs0 : getState s0 pos = getState s pos := by
      rw [hs0]
      split <;> rfl
    have hin0 : isOutsideField s0 pos = false := by
      rw [isOutsideField_congr h0.2.1]
      exact hin
    have hlen0 : s0.grid.length = s0.dimension * s0.dimension := by
      rw [h0.1, h0.2.1]
      exact hlen
    have hget0 : getState s0 pos = some (Cell.Close b) := by
      rw [hgs0]
      exact hget
    obtain ⟨hm1, hc1, ho1⟩ := counts_setState_open hin0 hlen0 hget0
    set s1 := setState s0 pos Cell.Open with hs1
    have hs1F : s1.dimension = s.dimension ∧ s1.totalMines = s.totalMines ∧
        s1.minables = s.minables ∧ s1.currentId = s.currentId ∧
        s1.grid.length = s.grid.length ∧
        s1.remainingClearCells = s.remainingClearCells ∧
        s1.wins = s.wins := by
      rw [hs1]
      refine ⟨?_, ?_, ?_, ?_, ?_, ?_, ?_⟩
      · rw [setState_dimension, h0.2.1]
      · rw [setState_totalMines, h0.2.2.1]
      · rw [setState_minables, h0.2.2.2.1]
      · rw [setState_currentId, h0.2.2.2.2.1]
      · rw [setState_grid_length, h0.1]
      · rw [setState_remainingClearCells, h0.2.2.2.2.2.1]
      · rw [setState_wins, h0.2.2.2.2.2.2]
    have hm1s : countMine s1 = countMine s := hm1.trans hcounts0.1
    have hc1s : countClose s1 + 1 = countClose s := by
      rw [hc1, hcounts0.2.1]
    have ho1s : countOpen s1 = countOpen s + 1 := by
      rw [ho1, hcounts0.2.2]
    have hlen1 : s1.grid.length = s1.dimension * s1.dimension := by
      rw [hs1F.2.2.2.2.1, hs1F.1]
      exact hlen
    have hrccS1 : s1.remainingClearCells = (countClose s1 : Int) + (w + 1) := by
      rw [hs1F.2.2.2.2.2.1, hrcc]
      have hcast : (countClose s1 : Int) + 1 = (countClose s : Int) := by
        exact_mod_cast hc1s
      omega
    set nb := neighbors s pos with hnb
    set mc := (nb.filter (fun q => isMine s1 q)).length with hmc
    set s2 := (if mc = 0 then openAll fuel nb s1 else s1 : GameState) with hs2
    have hS2 : OpenStep s1 s2 (w + 1) := by
      rw [hs2]
      split
      · exact openAll_run_of fuel ih nb s1 (w + 1) hlen1 (by omega) hrccS1
          (by omega)
      · exact OpenStep.refl_pos (by omega) hrccS1
    obtain ⟨a2, b2, c2, d2, e2, f2, g2, i2, j2, k2⟩ := hS2
    have hwins2 : s2.wins = s.wins := by
      have hcond : ¬ (w + 1 = 0 ∧ countClose s2 = 0) := fun h => by omega
      rw [k2, if_neg hcond, hs1F.2.2.2.2.2.2]
      omega
    set s3 := ({ s2 with remainingClearCells := s2.remainingClearCells - 1 }
      : GameState) with hs3
    have hrEq : openCell (fuel + 1) pos s =
        if s3.remainingClearCells = 0 then { s3 with wins := s3.wins + 1 }
        else s3 := rfl
    have hrcc3 : s3.remainingClearCells = (countClose s2 : Int) + w := by
      show s2.remainingClearCells - 1 = (countClose s2 : Int) + w
      omega
    have hdim2s : s2.dimension = s.dimension := a2.trans hs1F.1
    have htm2s : s2.totalMines = s.totalMines := b2.trans hs1F.2.1
    have hmin2s : s2.minables = s.minables := c2.trans hs1F.2.2.1
    have hcid2s : s2.currentId = s.currentId := d2.trans hs1F.2.2.2.1
    have hlen2s : s2.grid.length = s.grid.length := e2.trans hs1F.2.2.2.2.1
    have hcm2s : countMine s2 = countMine s := f2.trans hm1s
    have hsum2s : countOpen s2 + countClose s2 = countOpen s + countClose s := by
      omega
    have hcc2s : countClose s2 < countClose s := by omega
    rw [hrEq]
    by_cases hz : s3.remainingClearCells = 0
    · rw [if_pos hz]
      have hzero : w = 0 ∧ countClose s2 = 0 := by omega
      refine ⟨⟨hdim2s, htm2s, hmin2s, hcid2s, hlen2s, hcm2s, hsum2s,
        le_of_lt hcc2s, ?_, ?_⟩, hcc2s⟩
      · show s3.remainingClearCells = (countClose s2 : Int) + w
        exact hrcc3
      · show s3.wins + 1 = s.wins + (if w = 0 ∧ countClose s2 = 0 then 1 else 0)
        rw [if_pos hzero]
        show s2.wins + 1 = s.wins + 1
        rw [hwins2]
    · rw [if_neg hz]
      have hcond : ¬ (w = 0 ∧ countClose s2 = 0) := by
        rintro ⟨h1, h2⟩
        exact hz (by omega)
      refine ⟨⟨hdim2s, htm2s, hmin2s, hcid2s, hlen2s, hcm2s, hsum2s,
        le_of_lt hcc2s, ?_, ?_⟩, hcc2s⟩
      · show s3.remainingClearCells = (countClose s2 : Int) + w
        exact hrcc3
      · show s2.wins = s.wins + (if w = 0 ∧ countClose s2 = 0 then 1 else 0)
        rw [if_neg hcond, hwins2]
        omega

theorem Vec2.adjacentTo_self (p : Vec2) : p.adjacentTo p = true := by
  simp [Vec2.adjacentTo, Vec2.subtract]

theorem play_invariant :
    ∀ (ps : List Vec2) (s : GameState),
      ValidSeq s ps →
      s.grid.length = s.dimension * s.dimension →
      s.remainingClearCells = (countClose s : Int) →
      s.wins = (if countClose s = 0 then 1 else 0) →
      (play s ps).dimension = s.dimension ∧
      (play s ps).grid.length = s.grid.length ∧
      countMine (play s ps) = countMine s ∧
      countOpen (play s ps) + countClose (play s ps) =
        countOpen s + countClose s ∧
      (play s ps).remainingClearCells = (countClose (play s ps) : Int) ∧
      (play s ps).wins = (if countClose (play s ps) = 0 then 1 else 0) := by
  intro ps
  induction ps with
  | nil =>
    intro s hvs hlen hrcc hwins
    exact ⟨rfl, rfl, rfl, rfl, hrcc, hwins⟩
  | cons p ps ihp =>
    intro s hvs hlen hrcc hwins
    cases hvs with
    | cons _ _ _ hin hclose hrest =>
      have hplay : play s (p :: ps) = play (openCellTop s p) ps := by
        rw [play, play, List.foldl_cons]
      have hfuel : countClose s ≤ s.grid.length + 1 := by
        have : countClose s ≤ s.grid.length := List.countP_le_length _
        omega
      obtain ⟨⟨a1, b1, c1, d1, e1, f1, g1, i1, j1, k1⟩, hlt⟩ :=
        openCell_run (s.grid.length + 1) p s 0 hlen (le_refl 0) (by omega)
          hclose hfuel
      have hteq : openCellTop s p = openCell (s.grid.length + 1) p s := rfl
      rw [← hteq] at a1 b1 c1 d1 e1 f1 g1 i1 j1 k1 hlt
      obtain ⟨hin', b, hget⟩ := isEmpty_elim hclose
      have hpos : 0 < countClose s := countClose_pos_of_close hin' hlen hget
      have hlent : (openCellTop s p).grid.length =
          (openCellTop s p).dimension * (openCellTop s p).dimension := by
        rw [e1, a1]
        exact hlen
      have hrcct : (openCellTop s p).remainingClearCells =
          (countClose (openCellTop s p) : Int) := by
        rw [j1]
        omega
      have hwinst : (openCellTop s p).wins =
          (if countClose (openCellTop s p) = 0 then 1 else 0) := by
        rw [k1, hwins]
        have hne : countClose s ≠ 0 := by omega
        rw [if_neg hne]
        by_cases hct : countClose (openCellTop s p) = 0
        · rw [if_pos ⟨rfl, hct⟩, if_pos hct]
        · rw [if_neg (fun h => hct h.2), if_neg hct]
      obtain ⟨A, B, C, D, E, F⟩ :=
        ihp (openCellTop s p) hrest hlent hrcct hwinst
      rw [hplay]
      exact ⟨A.trans a1, B.trans e1, C.trans f1, by omega, E, F⟩

/-- C7: on a board produced by `populateMines` with an in-field first click,
along any sequence of `openCell` calls on in-field `Close` cells, the `win`
procedure has run exactly once as soon as the number of `Open` cells equals
`d² - m`, and has never run while fewer cells are open. -/
theorem c7_win_trigger (d m : Nat) (click : Vec2) (tape : List Nat)
    (s' : GameState) (t' : List Nat)
    (hrun : populateMines (initGame d m) click tape = .ok (s', t'))
    (hclick : isOutsideField s' click = false)
    (ps : List Vec2) (hvs : ValidSeq s' ps) :
    (play s' ps).wins =
      if countOpen (play s' ps) = d * d - m then 1 else 0 := by
  rw [populateMines] at hrun
  obtain ⟨hinv', -, hcm, hcc, hco, hdim, htm, hrcc, -, hwins⟩ :=
    genIter_ok _ _ tape s' t' (initGame_inv d m click) hrun
  obtain ⟨him, hic, hio⟩ := initGame_counts d m click
  have htmi : (initGame d m).totalMines = m := rfl
  rw [htmi] at hcm hcc
  rw [him] at hcm
  rw [hic] at hcc
  rw [hio] at hco
  have hrcc0 : (buildMinables (initGame d m) click).remainingClearCells =
      (d * d : Int) - (m : Int) := rfl
  have hwins0 : (buildMinables (initGame d m) click).wins = 0 := rfl
  rw [hrcc0] at hrcc
  rw [hwins0] at hwins
  have hlen' : s'.grid.length = s'.dimension * s'.dimension := hinv'.len
  have hccpos : 0 < countClose s' := by
    obtain ⟨c, hcell⟩ := getState_isSome hclick hinv'.len
    cases c with
    | Open => exact absurd rfl (hinv'.noOpen _ (getState_mem hcell))
    | Mine j f =>
      have hm : isMine s' click = true := by
        rw [isMine, hcell]
      have hadj := hinv'.mines click hclick hm
      rw [Vec2.adjacentTo_self] at hadj
      exact absurd hadj (by simp)
    | Close bb => exact countClose_pos_of_close hclick hinv'.len hcell
  have hrcc' : s'.remainingClearCells = (countClose s' : Int) := by
    rw [hrcc]
    have : (countClose s' : Int) + (m : Int) = ((d * d : Nat) : Int) := by
      exact_mod_cast hcc
    push_cast at this ⊢
    omega
  have hwins' : s'.wins = (if countClose s' = 0 then 1 else 0) := by
    rw [hwins, if_neg (by omega)]
  obtain ⟨A, B, C, D, E, F⟩ := play_invariant ps s' hvs hlen' hrcc' hwins'
  rw [F]
  by_cases h : countClose (play s' ps) = 0
  · rw [if_pos h, if_pos (by omega)]
  · rw [if_neg h, if_neg (by omega)]

theorem c7_win_trigger_witness :
    (play (runState (populateMines (initGame 2 0) ⟨0, 0⟩ [])) [⟨0, 0⟩]).wins =
      if countOpen (play (runState (populateMines (initGame 2 0) ⟨0, 0⟩ []))
          [⟨0, 0⟩]) = 2 * 2 - 0 then 1 else 0 :=
  c7_win_trigger 2 0 ⟨0, 0⟩ [] _ _ (by rfl) (by decide) [⟨0, 0⟩]
    (ValidSeq.cons _ _ _ (by decide) (by decide) (ValidSeq.nil _))

theorem openCell_rcc_mono :
    ∀ (fuel : Nat),
      (∀ (pos : Vec2) (s : GameState),
        (openCell fuel pos s).remainingClearCells ≤ s.remainingClearCells) ∧
      (∀ (pos : Vec2) (s : GameState), fuel ≠ 0 →
        (openCell fuel pos s).remainingClearCells ≤
          s.remainingClearCells - 1) := by
  intro fuel
  induction fuel with
  | zero => exact ⟨fun pos s => le_refl _, fun pos s h => absurd rfl h⟩
  | succ fuel ih =>
    have hAll : ∀ (qs : List Vec2) (s : GameState),
        (openAll fuel qs s).remainingClearCells ≤ s.remainingClearCells := by
      intro qs
      induction qs with
      | nil =>
        intro s
        rw [openAll_nil]
      | cons q rest ihq =>
        intro s
        rw [openAll_cons]
        refine le_trans (ihq _) ?_
        split
        · exact ih.1 q s
        · exact le_refl _
    have hcell : ∀ (pos : Vec2) (s : GameState),
        (openCell (fuel + 1) pos s).remainingClearCells ≤
          s.remainingClearCells - 1 := by
      intro pos s
      set s0 := (if flaggedAt s pos then
          { s with numRemainingFlags := s.numRemainingFlags + 1 } else s)
        with hs0
      set s1 := setState s0 pos Cell.Open with hs1
      set nb := neighbors s pos with hnb
      set mc := (nb.filter (fun q => isMine s1 q)).length with hmc
      set s2 := (if mc = 0 then openAll fuel nb s1 else s1 : GameState)
        with hs2
      set s3 := ({ s2 with
          remainingClearCells := s2.remainingClearCells - 1 } : GameState)
        with hs3
      have hrEq : openCell (fuel + 1) pos s =
          if s3.remainingClearCells = 0 then { s3 with wins := s3.wins + 1 }
          else s3 := rfl
      have hr0 : s0.remainingClearCells = s.remainingClearCells := by
        rw [hs0]
        split <;> rfl
      have hr1 : s1.remainingClearCells = s.remainingClearCells := by
        rw [hs1, setState_remainingClearCells, hr0]
      have hr2 : s2.remainingClearCells ≤ s.remainingClearCells := by
        rw [hs2]
        split
        · exact le_trans (hAll nb s1) (le_of_eq hr1)
        · exact le_of_eq hr1
      have hr3 : s3.remainingClearCells ≤ s.remainingClearCells - 1 := by
        show s2.remainingClearCells - 1 ≤ _
        omega
      rw [hrEq]
      split
      · exact hr3
      · exact hr3
    exact ⟨fun pos s => le_trans (hcell pos s) (by omega),
      fun pos s _ => hcell pos s⟩

/-- C8 as stated is false: calling `openCell` on an already-`Open` cell
changes the remaining-clear-cell counter. -/
theorem c8_as_stated_false : ¬ C8AsStated := by
  intro h
  have hc := (h ⟨1, 0, [Cell.Open], [], 1, 5, 0, 0⟩ ⟨0, 0⟩ (by decide)
    (by decide)).2.1
  exact absurd hc (by decide)

/-- C8: corrected form.  `openCell` has no guard on the cell state: even on
an already-`Open` in-field cell it still decrements the
remaining-clear-cell counter (and can flood further cells), so the call is
not a no-op. -/
theorem c8_open_reclick_decrements (s : GameState) (pos : Vec2)
    (hin : isOutsideField s pos = false)
    (hopen : getState s pos = some Cell.Open) :
    (openCellTop s pos).remainingClearCells ≤ s.remainingClearCells - 1 :=
  (openCell_rcc_mono (s.grid.length + 1)).2 pos s (by omega)

theorem c8_open_reclick_decrements_witness :
    isOutsideField (⟨1, 0, [Cell.Open], [], 1, 5, 0, 0⟩ : GameState)
      ⟨0, 0⟩ = false ∧
    getState (⟨1, 0, [Cell.Open], [], 1, 5, 0, 0⟩ : GameState) ⟨0, 0⟩ =
      some Cell.Open ∧
    (openCellTop (⟨1, 0, [Cell.Open], [], 1, 5, 0, 0⟩ : GameState)
      ⟨0, 0⟩).remainingClearCells ≤ 5 - 1 :=
  ⟨by decide, by decide,
    c8_open_reclick_decrements _ ⟨0, 0⟩ (by decide) (by decide)⟩

/-! ## A concrete run that pinches off an island -/

theorem genIter_succ (n : Nat) (s : GameState) (tape : List Nat) :
    genIter (n + 1) s tape =
      match generateMine s tape with
      | .error e => .error e
      | .ok (s', t') => genIter n s' t' := rfl

theorem island_run :
    populateMines (initGame 6 6) ⟨0, 0⟩ [7, 24, 6, 10, 15, 20] =
      Except.ok (islandState6, []) := by
  have htm : (initGame 6 6).totalMines = 6 := rfl
  have hb : buildMinables (initGame 6 6) ⟨0, 0⟩ = islandState0 := by decide
  have h1 : generateMine islandState0 [7, 24, 6, 10, 15, 20] =
      Except.ok (islandState1, [24, 6, 10, 15, 20]) := by rfl
  have h2 : generateMine islandState1 [24, 6, 10, 15, 20] =
      Except.ok (islandState2, [6, 10, 15, 20]) := by rfl
  have h3 : generateMine islandState2 [6, 10, 15, 20] =
      Except.ok (islandState3, [10, 15, 20]) := by rfl
  have h4 : generateMine islandState3 [10, 15, 20] =
      Except.ok (islandState4, [15, 20]) := by rfl
  have h5 : generateMine islandState4 [15, 20] =
      Except.ok (islandState5, [20]) := by rfl
  have h6 : generateMine islandState5 [20] = Except.ok (islandState6, []) := by
    rfl
  rw [populateMines, htm, hb]
  show genIter (5 + 1) islandState0 [7, 24, 6, 10, 15, 20] = _
  rw [genIter_succ, h1]
  show genIter (4 + 1) islandState1 [24, 6, 10, 15, 20] = _
  rw [genIter_succ, h2]
  show genIter (3 + 1) islandState2 [6, 10, 15, 20] = _
  rw [genIter_succ, h3]
  show genIter (2 + 1) islandState3 [10, 15, 20] = _
  rw [genIter_succ, h4]
  show genIter (1 + 1) islandState4 [15, 20] = _
  rw [genIter_succ, h5]
  show genIter (0 + 1) islandState5 [20] = _
  rw [genIter_succ, h6]
  rfl

theorem island_pocket_closed :
    ∀ x y : Vec2, (x = ⟨5, 2⟩ ∨ x = ⟨5, 3⟩) → emptyAdj islandState6 x y →
      (y = (⟨5, 2⟩ : Vec2) ∨ y = (⟨5, 3⟩ : Vec2)) := by
  intro x y hx hadj
  obtain ⟨hxin, hyin, hxm, hym, hne, hadj2⟩ := hadj
  obtain ⟨yx, yy⟩ := y
  have hyb := isOutsideField_eq_false.mp hyin
  have hd6 : ((islandState6.dimension : Nat) : Int) = 6 := rfl
  rw [hd6] at hyb
  dsimp only at hyb
  rcases hx with rfl | rfl <;>
    simp only [Vec2.adjacentTo, Vec2.subtract, Bool.and_eq_true,
      decide_eq_true_eq] at hadj2 <;>
    obtain ⟨⟨ha1, ha2⟩, ha3, ha4⟩ := hadj2
  · have hx1 : 4 ≤ yx := by omega
    have hx2 : yx ≤ 5 := by omega
    have hy1 : 1 ≤ yy := by omega
    have hy2 : yy ≤ 3 := by omega
    interval_cases yx <;> interval_cases yy
    · exact absurd hym (by decide)
    · exact absurd hym (by decide)
    · exact absurd hym (by decide)
    · exact absurd hym (by decide)
    · exact absurd rfl hne
    · exact Or.inr rfl
  · have hx1 : 4 ≤ yx := by omega
    have hx2 : yx ≤ 5 := by omega
    have hy1 : 2 ≤ yy := by omega
    have hy2 : yy ≤ 4 := by omega
    interval_cases yx <;> interval_cases yy
    · exact absurd hym (by decide)
    · exact absurd hym (by decide)
    · exact absurd hym (by decide)
    · exact Or.inl rfl
    · exact absurd rfl hne
    · exact absurd hym (by decide)

/-- C1 is violated by the program: the run with dimension 6, 6 mines, first
click (0,0) and random draws [7, 24, 6, 10, 15, 20] completes without
error, yet on the returned board the non-mine cells (5,2) and (5,3) form a
pocket sealed off by the mines (4,1), (5,1), (4,2), (4,3), (4,4), (5,4) and
the field edge.  All six mines carry the boundary sentinel id 0, which
defeats the common-id pinch test of `willCreateIsland`, so the board does
not have a single 8-connected component of non-mine cells. -/
theorem c1_single_component_violated :
    isOkRun (populateMines (initGame 6 6) ⟨0, 0⟩ [7, 24, 6, 10, 15, 20]) =
      true ∧
    ¬ SingleEmptyComponent
      (runState (populateMines (initGame 6 6) ⟨0, 0⟩ [7, 24, 6, 10, 15, 20])) := by
  have hrun := island_run
  constructor
  · rw [hrun]
    rfl
  · rw [hrun]
    intro hS
    have hconn : EmptyConnected islandState6 ⟨5, 2⟩ ⟨0, 0⟩ :=
      hS ⟨5, 2⟩ ⟨0, 0⟩ (by decide) (by decide) (by decide) (by decide)
    have hP : ∀ z, EmptyConnected islandState6 ⟨5, 2⟩ z →
        (z = (⟨5, 2⟩ : Vec2) ∨ z = (⟨5, 3⟩ : Vec2)) := by
      intro z hz
      induction hz with
      | refl => exact Or.inl rfl
      | tail h1 h2 ih => exact island_pocket_closed _ _ ih h2
    rcases hP ⟨0, 0⟩ hconn with h | h <;> exact absurd h (by decide)
